import Mathlib

/-!
LookupGeographicGridRoute: a shallow embedding of
`src/elements/grid/lookupgeogridroute.cc` (the Grid geographic forwarding
element of Click) and theorems about
`LookupGeographicGridRoute::get_next_geographic_hop` and
`LookupGeographicGridRoute::push`.

Modelling conventions.

* `IPAddress` and `EtherAddress` are only compared for equality by the element;
  they are natural numbers here. `IPAddress()` is the address `0`.
* `_rt->_rtes` is a hash map from `IPAddress` to `RTEntry`. It is embedded as the
  list of its `(key, value)` pairs in iteration order (`RTIter`), and `findp`
  returns the value stored under a key.
* `FilterByRange::calc_range` lives in another file; it is a parameter
  `calc_range : grid_location → grid_location → D` into a linear order `D`.
  That is the scan on distances that are all comparable. The source compares
  `double` values, where NaN compares false with everything: `Dbl D` adds NaN to
  `D`, and `scan_ieee` and `get_next_geographic_hop_ieee` are the same code with
  that comparison. The two agree when no candidate has a NaN distance.
* A packet is its buffer content plus the flag `Packet::shared()`. The call
  `packet->uniqueify()` yields the same buffer for an unshared packet and a
  private copy for a shared one; pointers computed from `packet->data()` before
  that call keep designating the original buffer.
* The field `hops_travelled` is a machine integer whose width `hops_bits` is a
  parameter (its declaration is in `grid.hh`); `++` wraps modulo `2 ^ hops_bits`.
* Side effects (`click_chatter`, `notify_route_cbs`, `output(i).push`,
  `Packet::kill`, the hash lookup) are recorded, in program order, in a list of
  events.
-/

namespace LookupGeographicGridRoute

/-! ## Data model -/

abbrev IPAddress := Nat

abbrev EtherAddress := Nat

/-- Modelled from the spec: `grid_location` is declared in `grid.hh`; the spec
calls it a 2D coordinate. -/
structure grid_location where
  lat : Int
  lon : Int
  deriving DecidableEq, Repr

/-- The fields of `GridRouteTable::RTEntry` that the element reads. -/
structure RTEntry where
  dest_ip : IPAddress
  next_hop_ip : IPAddress
  next_hop_eth : EtherAddress
  num_hops : Nat
  loc : grid_location
  loc_good : Bool
  deriving DecidableEq, Repr

/-- The content of `_rt->_rtes`: the `(key, value)` pairs in the order in which
`RTIter` visits them. -/
abbrev RTable := List (IPAddress × RTEntry)

/-- The lookup `_rtes.findp(k)`: the value stored under key `k`, if any. -/
def findp : RTable → IPAddress → Option RTEntry
  | [], _ => none
  | (k, e) :: rest, ip => if k = ip then some e else findp rest ip

/-! ## The distance scan of `get_next_geographic_hop` (lines 195-212) -/

/-- The three locals of the scan: `next_hop`, `d`, `found_one`. -/
structure ScanState (D : Type) where
  next_hop : IPAddress
  d : D
  found_one : Bool

/-- Locals as initialised at lines 195-197. -/
def scan_init (D : Type) [Zero D] : ScanState D :=
  { next_hop := 0, d := 0, found_one := false }

/-- One iteration of the `for` loop body (lines 199-211). -/
def scan_step {D : Type} [LinearOrder D] (calc_range : grid_location → grid_location → D)
    (dest_loc : grid_location) (s : ScanState D) (kv : IPAddress × RTEntry) : ScanState D :=
  let rte := kv.2
  if !rte.loc_good then s
  else
    let new_d := calc_range dest_loc rte.loc
    if !s.found_one then
      { next_hop := rte.next_hop_ip, d := new_d, found_one := true }
    else if new_d < s.d then
      { s with next_hop := rte.next_hop_ip, d := new_d }
    else s

/-- The whole `for` loop, started from state `s`. -/
def scan_from {D : Type} [LinearOrder D] (calc_range : grid_location → grid_location → D)
    (dest_loc : grid_location) (s : ScanState D) (rt : RTable) : ScanState D :=
  rt.foldl (scan_step calc_range dest_loc) s

/-- The `for` loop of lines 198-212 run on the whole table. -/
def scan {D : Type} [LinearOrder D] [Zero D] (calc_range : grid_location → grid_location → D)
    (dest_loc : grid_location) (rt : RTable) : ScanState D :=
  scan_from calc_range dest_loc (scan_init D) rt

/-! ## Events, packets and buffers -/

/-- The Grid packet types the element tells apart (`grid_hdr::type`); every
other type code is `GRID_OTHER`. -/
inductive grid_type where
  | GRID_NBR_ENCAP
  | GRID_LOC_REPLY
  | GRID_OTHER (code : Nat)
  deriving DecidableEq, Repr

/-- The content of a packet buffer: the Ethernet header, the `grid_hdr`, the
`grid_nbr_encap` header and the payload, field by field. The headers are taken
to be laid out without overlap. -/
structure PacketData where
  ether_dhost : EtherAddress
  ether_shost : EtherAddress
  ether_type : Nat
  hdr_len : Nat
  type : grid_type
  ip : IPAddress
  tx_ip : IPAddress
  loc : grid_location
  gh_rest : List Nat
  dst_ip : IPAddress
  dst_loc : grid_location
  dst_loc_good : Bool
  hops_travelled : Nat
  payload : List Nat
  deriving DecidableEq, Repr

/-- A `Packet`: its buffer content and whether the buffer is shared with another
packet (`Packet::shared()`). -/
structure Packet where
  shared : Bool
  data : PacketData
  deriving DecidableEq, Repr

/-- The two buffers `push` can touch: the one the incoming `packet` points to and
the private copy that `uniqueify` makes of a shared buffer. -/
inductive Buf where
  | orig
  | copy
  deriving DecidableEq, Repr

structure Mem where
  orig : PacketData
  copy : PacketData
  deriving DecidableEq, Repr

def Mem.read (m : Mem) : Buf → PacketData
  | .orig => m.orig
  | .copy => m.copy

def Mem.write (m : Mem) (b : Buf) (f : PacketData → PacketData) : Mem :=
  match b with
  | .orig => { m with orig := f m.orig }
  | .copy => { m with copy := f m.copy }

/-- The call `Packet::uniqueify()` (Click packet API): an unshared packet is returned as
it is; for a shared one a fresh copy of the data is returned. The result is the
buffer that `xp->data()` designates. -/
def uniqueify (p : Packet) : Buf :=
  if p.shared then Buf.copy else Buf.orig

/-- The messages passed to `click_chatter`. -/
inductive Chatter where
  | unexpected_type (t : grid_type)
  | packet_for_us (dest_ip : IPAddress)
  | no_routing_table (dest_ip : IPAddress)
  | bad_dest_loc (dest_ip : IPAddress)
  | no_next_hop_entry
  | next_hop_not_one_hop
  deriving DecidableEq, Repr

/-- The `GRCB::Action` values used by the element. -/
inductive Action where
  | ForwardGF
  | Drop
  deriving DecidableEq, Repr

/-- The `GRCB` drop reasons used by the element. -/
inductive DropReason where
  | UnknownType
  | ConfigError
  | NoDestLoc
  | NoCloserNode
  deriving DecidableEq, Repr

/-- The fourth argument of `notify_route_cbs`: a drop reason, or the next-hop
address on a forward. -/
inductive NotifyData where
  | reason (r : DropReason)
  | addr (a : IPAddress)
  deriving DecidableEq, Repr

/-- Observable effects, in program order. -/
inductive Event where
  | chatter (m : Chatter)
  | findp (key : IPAddress)
  | notify (dest_ip : IPAddress) (action : Action) (data : NotifyData) (data2 : IPAddress)
  | output (port : Nat) (p : PacketData)
  | kill
  deriving DecidableEq, Repr

/-! ## `get_next_geographic_hop` (lines 186-242) -/

/-- The three output parameters `*dest_eth`, `*dest_ip`, `*best_nbr`. -/
structure HopOut where
  dest_eth : EtherAddress
  dest_ip : IPAddress
  best_nbr : IPAddress
  deriving DecidableEq, Repr

/-- Return value, final content of the output parameters, and the effects. -/
structure HopResult where
  ret : Bool
  out : HopOut
  events : List Event
  deriving DecidableEq, Repr

/-- The function `get_next_geographic_hop`: `out` is the content of the three
output parameters on entry. The first (unnamed) argument is the destination
address. -/
def get_next_geographic_hop {D : Type} [LinearOrder D] [Zero D]
    (calc_range : grid_location → grid_location → D) (rtes : RTable)
    (_dest : IPAddress) (dest_loc : grid_location) (out : HopOut) : HopResult :=
  let s := scan calc_range dest_loc rtes
  if !s.found_one then
    { ret := false, out := out, events := [] }
  else
    match findp rtes s.next_hop with
    | none =>
      { ret := false, out := out,
        events := [Event.findp s.next_hop, Event.chatter Chatter.no_next_hop_entry] }
    | some nent =>
      if nent.num_hops ≠ 1 then
        { ret := false, out := out,
          events := [Event.findp s.next_hop, Event.chatter Chatter.next_hop_not_one_hop] }
      else
        { ret := true,
          out := { dest_eth := nent.next_hop_eth, dest_ip := nent.next_hop_ip,
                   best_nbr := s.next_hop },
          events := [Event.findp s.next_hop] }

/-! ## `push` (lines 91-183) -/

/-- The configuration of the element: `_ethaddr`, `_ipaddr`, and `_rt`
(`none` when `_rt == 0`, otherwise the content of `_rt->_rtes`). -/
structure Config where
  _ethaddr : EtherAddress
  _ipaddr : IPAddress
  _rt : Option RTable

/-- What one call of `push` does: its effects in order, and the final content
of the buffers. -/
structure PushResult where
  events : List Event
  mem : Mem
  deriving DecidableEq, Repr

/-- The method `push(0, packet)`. `hops_bits` is the width in bits of the field
`hops_travelled` (declared in `grid.hh`). The pointers `gh` (line 100) and
`encap` (line 114) are computed from `packet->data()`; `eh` and the inner `gh`
(lines 157, 160) from `xp->data()`. -/
def push {D : Type} [LinearOrder D] [Zero D]
    (calc_range : grid_location → grid_location → D) (hops_bits : Nat)
    (cfg : Config) (packet : Packet) : PushResult :=
  let m0 : Mem := { orig := packet.data, copy := packet.data }
  let gh := m0.read Buf.orig
  if gh.type ≠ grid_type.GRID_NBR_ENCAP ∧ gh.type ≠ grid_type.GRID_LOC_REPLY then
    { events := [Event.chatter (Chatter.unexpected_type gh.type),
                 Event.notify 0 Action.Drop (NotifyData.reason DropReason.UnknownType) 0,
                 Event.output 2 (m0.read Buf.orig)],
      mem := m0 }
  else
    let dest_ip := (m0.read Buf.orig).dst_ip
    if dest_ip = cfg._ipaddr then
      { events := [Event.chatter (Chatter.packet_for_us dest_ip),
                   Event.notify dest_ip Action.Drop (NotifyData.reason DropReason.ConfigError) 0,
                   Event.kill],
        mem := m0 }
    else
      match cfg._rt with
      | none =>
        { events := [Event.chatter (Chatter.no_routing_table dest_ip),
                     Event.notify dest_ip Action.Drop
                       (NotifyData.reason DropReason.ConfigError) 0,
                     Event.output 1 (m0.read Buf.orig)],
          mem := m0 }
      | some rtes =>
        if !(m0.read Buf.orig).dst_loc_good then
          { events := [Event.chatter (Chatter.bad_dest_loc dest_ip),
                       Event.notify dest_ip Action.Drop
                         (NotifyData.reason DropReason.NoDestLoc) 0,
                       Event.output 2 (m0.read Buf.orig)],
            mem := m0 }
        else
          let xp := uniqueify packet
          let r := get_next_geographic_hop calc_range rtes dest_ip
            (m0.read Buf.orig).dst_loc { dest_eth := 0, dest_ip := 0, best_nbr := 0 }
          if r.ret then
            let m1 := m0.write xp (fun d => { d with ether_shost := cfg._ethaddr })
            let m2 := m1.write xp (fun d => { d with ether_dhost := r.out.dest_eth })
            let m3 := m2.write xp (fun d => { d with tx_ip := cfg._ipaddr })
            let m4 := m3.write Buf.orig
              (fun d => { d with hops_travelled := (d.hops_travelled + 1) % 2 ^ hops_bits })
            { events := r.events ++
                [Event.notify dest_ip Action.ForwardGF (NotifyData.addr r.out.dest_ip)
                   r.out.best_nbr,
                 Event.output 0 (m4.read xp)],
              mem := m4 }
          else
            { events := r.events ++
                [Event.notify dest_ip Action.Drop
                   (NotifyData.reason DropReason.NoCloserNode) 0,
                 Event.output 1 (m0.read xp)],
              mem := m0 }

/-- The packets pushed to output `port`, in order. -/
def outputs_on (port : Nat) : List Event → List PacketData
  | [] => []
  | Event.output q p :: rest =>
    if q = port then p :: outputs_on port rest else outputs_on port rest
  | _ :: rest => outputs_on port rest

/-- The notifications sent to `notify_route_cbs`, in order. -/
def notifications : List Event → List Event
  | [] => []
  | Event.notify a b c d :: rest => Event.notify a b c d :: notifications rest
  | _ :: rest => notifications rest

/-! ## Concrete instances used for evaluation -/

/-- Squared straight-line distance, a monotone function of the distance. -/
def sq_range (a b : grid_location) : Int :=
  (a.lat - b.lat) * (a.lat - b.lat) + (a.lon - b.lon) * (a.lon - b.lon)

def addrA : IPAddress := 1
def addrB : IPAddress := 2
def addrC : IPAddress := 3
def linkAA : EtherAddress := 170
def linkCC : EtherAddress := 204

def entryA : RTEntry :=
  { dest_ip := addrA, next_hop_ip := addrA, next_hop_eth := linkAA, num_hops := 1,
    loc := { lat := 0, lon := 0 }, loc_good := true }

def entryB : RTEntry :=
  { dest_ip := addrB, next_hop_ip := addrA, next_hop_eth := linkAA, num_hops := 2,
    loc := { lat := 5, lon := 5 }, loc_good := true }

def entryC : RTEntry :=
  { dest_ip := addrC, next_hop_ip := addrC, next_hop_eth := linkCC, num_hops := 1,
    loc := { lat := 10, lon := 0 }, loc_good := true }

/-- The table of the scenario: A, B (two hops, via A), C. -/
def tableABC : RTable := [(addrA, entryA), (addrB, entryB), (addrC, entryC)]

/-- The same table with the entry for A removed and only B left. -/
def tableB : RTable := [(addrB, entryB)]

def out0 : HopOut := { dest_eth := 0, dest_ip := 0, best_nbr := 0 }

/-- A table whose only entry has no trusted location. -/
def tableNoLoc : RTable := [(addrA, { entryA with loc_good := false })]

/-- A data packet for node 9, last known at (9,1), that has travelled 4 hops. -/
def pkt0 : PacketData :=
  { ether_dhost := 11, ether_shost := 12, ether_type := 13, hdr_len := 60,
    type := grid_type.GRID_NBR_ENCAP, ip := 7, tx_ip := 8, loc := { lat := 2, lon := 3 },
    gh_rest := [1, 2, 3], dst_ip := 9, dst_loc := { lat := 9, lon := 1 },
    dst_loc_good := true, hops_travelled := 4, payload := [42, 43] }

/-- The local node: link address 255, IP address 100, with the given table. -/
def cfgWith (rt : Option RTable) : Config :=
  { _ethaddr := 255, _ipaddr := 100, _rt := rt }

/-- The state of the locals after the loop has visited `rt`, started with
`found_one` false: either nothing with `loc_good` was seen, or the locals hold
the entry `E` that splits the visited entries into `pre`, all strictly farther,
and `post`, none closer. -/
def ScanInv {D : Type} [LinearOrder D] (calc_range : grid_location → grid_location → D)
    (dest_loc : grid_location) (rt : RTable) (s : ScanState D) : Prop :=
  (s.found_one = false ∧ ∀ kv ∈ rt, kv.2.loc_good = false) ∨
  (s.found_one = true ∧ ∃ pre E post, rt = pre ++ E :: post ∧ E.2.loc_good = true ∧
    s.next_hop = E.2.next_hop_ip ∧ s.d = calc_range dest_loc E.2.loc ∧
    (∀ F ∈ pre, F.2.loc_good = true →
      calc_range dest_loc E.2.loc < calc_range dest_loc F.2.loc) ∧
    (∀ F ∈ post, F.2.loc_good = true →
      calc_range dest_loc E.2.loc ≤ calc_range dest_loc F.2.loc))

/-- The drop reasons carried by the notifications among the events, in order. -/
def drop_reasons : List Event → List DropReason
  | [] => []
  | Event.notify _ Action.Drop (NotifyData.reason r) _ :: rest => r :: drop_reasons rest
  | _ :: rest => drop_reasons rest

/-- The packet type is one of the two that `push` accepts (line 105). -/
def known_type (t : grid_type) : Prop :=
  t = grid_type.GRID_NBR_ENCAP ∨ t = grid_type.GRID_LOC_REPLY

instance (t : grid_type) : Decidable (known_type t) := by
  unfold known_type; infer_instance

/-- A packet of a type that `push` does not accept, addressed to node 100. -/
def pktOther : PacketData :=
  { pkt0 with type := grid_type.GRID_OTHER 1, dst_ip := 100 }

/-- All the packets pushed to any output, with the port, in order. -/
def all_outputs : List Event → List (Nat × PacketData)
  | [] => []
  | Event.output q p :: rest => (q, p) :: all_outputs rest
  | _ :: rest => all_outputs rest

/-- The keys of the hash map are pairwise distinct. -/
def distinct_keys (rt : RTable) : Prop :=
  (rt.map Prod.fst).Nodup

/-- The route-table invariant: the `next_hop_ip` of every entry is a key of the
table, and the entry stored under it has `num_hops = 1`. -/
def route_table_invariant (rt : RTable) : Prop :=
  ∀ kv ∈ rt, ∃ N, findp rt kv.2.next_hop_ip = some N ∧ N.num_hops = 1

/-- No two distinct `loc_good` entries of the table are at the same distance
from `dest_loc`. -/
def no_ties {D : Type} (calc_range : grid_location → grid_location → D)
    (dest_loc : grid_location) (rt : RTable) : Prop :=
  ∀ e ∈ rt, ∀ f ∈ rt, e.2.loc_good = true → f.2.loc_good = true →
    calc_range dest_loc e.2.loc = calc_range dest_loc f.2.loc → e = f

/-- The table A, B, C iterated in the order C, A, B. -/
def tableCAB : RTable := [(addrC, entryC), (addrA, entryA), (addrB, entryB)]

/-- A table in which the one-hop entry A has no trusted location and B, reached
via A, is the only candidate of the scan. -/
def tableA_noloc_B : RTable := [(addrA, { entryA with loc_good := false }), (addrB, entryB)]

/-! ## The scan on `double` distances, NaN included -/

/-- A `double` as far as `<` sees it: a value of the linear order `D`, or NaN. -/
inductive Dbl (D : Type) where
  | val (x : D)
  | nan
  deriving DecidableEq, Repr

/-- The comparison `a < b` of two doubles: false as soon as an operand is NaN. -/
def Dbl.lt {D : Type} [LinearOrder D] : Dbl D → Dbl D → Bool
  | Dbl.val x, Dbl.val y => decide (x < y)
  | _, _ => false

/-- The value of a double that is not NaN (and `0` for NaN). -/
def Dbl.toD {D : Type} [Zero D] : Dbl D → D
  | Dbl.val x => x
  | Dbl.nan => 0

/-- One iteration of the loop body (lines 199-211) on doubles. -/
def scan_step_ieee {D : Type} [LinearOrder D]
    (calc_range : grid_location → grid_location → Dbl D)
    (dest_loc : grid_location) (s : ScanState (Dbl D)) (kv : IPAddress × RTEntry) :
    ScanState (Dbl D) :=
  let rte := kv.2
  if !rte.loc_good then s
  else
    let new_d := calc_range dest_loc rte.loc
    if !s.found_one then
      { next_hop := rte.next_hop_ip, d := new_d, found_one := true }
    else if Dbl.lt new_d s.d then
      { s with next_hop := rte.next_hop_ip, d := new_d }
    else s

/-- The loop of lines 198-212 on doubles, started from state `s`. -/
def scan_from_ieee {D : Type} [LinearOrder D]
    (calc_range : grid_location → grid_location → Dbl D)
    (dest_loc : grid_location) (s : ScanState (Dbl D)) (rt : RTable) : ScanState (Dbl D) :=
  rt.foldl (scan_step_ieee calc_range dest_loc) s

/-- The loop of lines 198-212 on doubles, with the locals of lines 195-197
(`d = 0`). -/
def scan_ieee {D : Type} [LinearOrder D] [Zero D]
    (calc_range : grid_location → grid_location → Dbl D)
    (dest_loc : grid_location) (rt : RTable) : ScanState (Dbl D) :=
  scan_from_ieee calc_range dest_loc { next_hop := 0, d := Dbl.val 0, found_one := false } rt

/-- The function `get_next_geographic_hop` with `calc_range` returning doubles. -/
def get_next_geographic_hop_ieee {D : Type} [LinearOrder D] [Zero D]
    (calc_range : grid_location → grid_location → Dbl D) (rtes : RTable)
    (_dest : IPAddress) (dest_loc : grid_location) (out : HopOut) : HopResult :=
  let s := scan_ieee calc_range dest_loc rtes
  if !s.found_one then
    { ret := false, out := out, events := [] }
  else
    match findp rtes s.next_hop with
    | none =>
      { ret := false, out := out,
        events := [Event.findp s.next_hop, Event.chatter Chatter.no_next_hop_entry] }
    | some nent =>
      if nent.num_hops ≠ 1 then
        { ret := false, out := out,
          events := [Event.findp s.next_hop, Event.chatter Chatter.next_hop_not_one_hop] }
      else
        { ret := true,
          out := { dest_eth := nent.next_hop_eth, dest_ip := nent.next_hop_ip,
                   best_nbr := s.next_hop },
          events := [Event.findp s.next_hop] }

/-- The locals of the scan on doubles and of the scan on `D` agree: same
`next_hop`, same `found_one`, and the same distance once a candidate is held. -/
def ScanSim {D : Type} (s1 : ScanState (Dbl D)) (s : ScanState D) : Prop :=
  s1.next_hop = s.next_hop ∧ s1.found_one = s.found_one ∧
    (s.found_one = true → s1.d = Dbl.val s.d)

/-- No `loc_good` entry of the table has a NaN distance from `dest_loc`. -/
def no_nan {D : Type} (calc_range : grid_location → grid_location → Dbl D)
    (dest_loc : grid_location) (rt : RTable) : Prop :=
  ∀ e ∈ rt, e.2.loc_good = true → calc_range dest_loc e.2.loc ≠ Dbl.nan

/-- Squared straight-line distance as a double that is never NaN. -/
def ieee_sq_range (a b : grid_location) : Dbl Int :=
  Dbl.val (sq_range a b)

/-- A distance function that yields NaN for the location (0,0) of entry A and
the squared straight-line distance otherwise. -/
def nan_range (a b : grid_location) : Dbl Int :=
  if b = { lat := 0, lon := 0 } then Dbl.nan else Dbl.val (sq_range a b)

/-- The one-hop entries A and C, iterated in the order A, C. -/
def tableAC : RTable := [(addrA, entryA), (addrC, entryC)]

/-- The one-hop entries A and C, iterated in the order C, A. -/
def tableCA : RTable := [(addrC, entryC), (addrA, entryA)]

/-! ## The scan keeps the earliest closest entry -/

section ScanLemmas

variable {D : Type} [LinearOrder D] (calc_range : grid_location → grid_location → D)
  (dest_loc : grid_location)

theorem scan_from_append (s : ScanState D) (l₁ l₂ : RTable) :
    scan_from calc_range dest_loc s (l₁ ++ l₂) =
      scan_from calc_range dest_loc (scan_from calc_range dest_loc s l₁) l₂ := by
  simp [scan_from, List.foldl_append]

theorem scan_from_snoc (s : ScanState D) (l : RTable) (kv : IPAddress × RTEntry) :
    scan_from calc_range dest_loc s (l ++ [kv]) =
      scan_step calc_range dest_loc (scan_from calc_range dest_loc s l) kv := by
  simp [scan_from, List.foldl_append]

theorem scanInv_step (l : RTable) (s : ScanState D) (kv : IPAddress × RTEntry)
    (h : ScanInv calc_range dest_loc l s) :
    ScanInv calc_range dest_loc (l ++ [kv]) (scan_step calc_range dest_loc s kv) := by
  unfold scan_step
  by_cases hg : kv.2.loc_good = true
  · simp only [hg, Bool.not_true, Bool.false_eq_true, if_false]
    rcases h with ⟨hf, hall⟩ | ⟨hf, pre, E, post, hl, hE, hnh, hd, hpre, hpost⟩
    · -- first entry with a good location
      simp only [hf, Bool.not_false, if_true]
      refine Or.inr ⟨rfl, l, kv, [], by simp, hg, rfl, rfl, ?_, by simp⟩
      intro F hF hFg
      rw [hall F hF] at hFg
      exact absurd hFg (by simp)
    · simp only [hf, Bool.not_true, Bool.false_eq_true, if_false]
      by_cases hlt : calc_range dest_loc kv.2.loc < s.d
      · -- strictly closer: the candidate is replaced
        simp only [hlt, if_true]
        refine Or.inr ⟨rfl, l, kv, [], by simp, hg, rfl, rfl, ?_, by simp⟩
        intro F hF hFg
        rw [hd] at hlt
        rw [hl] at hF
        rcases List.mem_append.1 hF with hF | hF
        · exact lt_trans hlt (hpre F hF hFg)
        · rcases List.mem_cons.1 hF with hF | hF
          · rw [hF]; exact hlt
          · exact lt_of_lt_of_le hlt (hpost F hF hFg)
      · -- not closer: the candidate stays
        simp only [hlt, if_false]
        refine Or.inr ⟨hf, pre, E, post ++ [kv], by simp [hl], hE, hnh, hd, hpre, ?_⟩
        intro F hF hFg
        rcases List.mem_append.1 hF with hF | hF
        · exact hpost F hF hFg
        · rw [List.mem_singleton.1 hF, ← hd]
          exact not_lt.1 hlt
  · have hg' : kv.2.loc_good = false := by simpa using hg
    simp only [hg', Bool.not_false, if_true]
    rcases h with ⟨hf, hall⟩ | ⟨hf, pre, E, post, hl, hE, hnh, hd, hpre, hpost⟩
    · refine Or.inl ⟨hf, ?_⟩
      intro F hF
      rcases List.mem_append.1 hF with hF | hF
      · exact hall F hF
      · rw [List.mem_singleton.1 hF]; exact hg'
    · refine Or.inr ⟨hf, pre, E, post ++ [kv], by simp [hl], hE, hnh, hd, hpre, ?_⟩
      intro F hF hFg
      rcases List.mem_append.1 hF with hF | hF
      · exact hpost F hF hFg
      · rw [List.mem_singleton.1 hF, hg'] at hFg
        exact absurd hFg (by simp)

theorem scanInv_scan [Zero D] (rt : RTable) :
    ScanInv calc_range dest_loc rt (scan calc_range dest_loc rt) := by
  induction rt using List.reverseRecOn with
  | nil => exact Or.inl ⟨rfl, by simp⟩
  | append_singleton l kv ih =>
    unfold scan at ih ⊢
    rw [scan_from_snoc]
    exact scanInv_step calc_range dest_loc l _ kv ih

theorem scan_found_one_iff [Zero D] (rt : RTable) :
    (scan calc_range dest_loc rt).found_one = true ↔ ∃ kv ∈ rt, kv.2.loc_good = true := by
  rcases scanInv_scan calc_range dest_loc rt with ⟨hf, hall⟩ | ⟨hf, pre, E, post, hl, hE, _⟩
  · constructor
    · intro h; rw [hf] at h; exact absurd h (by simp)
    · rintro ⟨kv, hkv, hg⟩; rw [hall kv hkv] at hg; exact absurd hg (by simp)
  · exact ⟨fun _ => ⟨E, by simp [hl], hE⟩, fun _ => hf⟩

theorem scan_found_one_false [Zero D] (rt : RTable)
    (hnone : ∀ kv ∈ rt, kv.2.loc_good = false) :
    (scan calc_range dest_loc rt).found_one = false := by
  cases h : (scan calc_range dest_loc rt).found_one with
  | false => rfl
  | true =>
    obtain ⟨kv, hkv, hg⟩ := (scan_found_one_iff calc_range dest_loc rt).1 h
    rw [hnone kv hkv] at hg
    exact absurd hg (by simp)

/-- The early return of line 214. -/
theorem get_next_geographic_hop_early_return [Zero D] (rtes : RTable) (dest : IPAddress)
    (out : HopOut) (hnone : ∀ kv ∈ rtes, kv.2.loc_good = false) :
    get_next_geographic_hop calc_range rtes dest dest_loc out =
      { ret := false, out := out, events := [] } := by
  simp [get_next_geographic_hop, scan_found_one_false calc_range dest_loc rtes hnone]

end ScanLemmas

/-! ## Claims about `get_next_geographic_hop` -/

/-- C1. For every destination location and every table (in iteration order)
with at least one `loc_good` entry, the scan ends with `found_one` set and with
`next_hop` equal to the `next_hop_ip` of an entry `E` with `loc_good` whose
distance to the destination is at most that of every `loc_good` entry, and `E`
is the earliest entry attaining that minimum: every `loc_good` entry iterated
before `E` is strictly farther. -/
theorem scan_keeps_earliest_closest {D : Type} [LinearOrder D] [Zero D]
    (calc_range : grid_location → grid_location → D) (dest_loc : grid_location)
    (rt : RTable) (hgood : ∃ kv ∈ rt, kv.2.loc_good = true) :
    (scan calc_range dest_loc rt).found_one = true ∧
    ∃ pre E post, rt = pre ++ E :: post ∧ E.2.loc_good = true ∧
      (scan calc_range dest_loc rt).next_hop = E.2.next_hop_ip ∧
      (scan calc_range dest_loc rt).d = calc_range dest_loc E.2.loc ∧
      (∀ F ∈ rt, F.2.loc_good = true →
        calc_range dest_loc E.2.loc ≤ calc_range dest_loc F.2.loc) ∧
      (∀ F ∈ pre, F.2.loc_good = true →
        calc_range dest_loc E.2.loc < calc_range dest_loc F.2.loc) := by
  rcases scanInv_scan calc_range dest_loc rt with
    ⟨_, hall⟩ | ⟨hf, pre, E, post, hl, hE, hnh, hd, hpre, hpost⟩
  · obtain ⟨kv, hkv, hg⟩ := hgood
    rw [hall kv hkv] at hg
    exact absurd hg (by simp)
  · refine ⟨hf, pre, E, post, hl, hE, hnh, hd, ?_, hpre⟩
    intro F hF hFg
    rw [hl] at hF
    rcases List.mem_append.1 hF with hF | hF
    · exact le_of_lt (hpre F hF hFg)
    · rcases List.mem_cons.1 hF with hF | hF
      · rw [hF]
      · exact hpost F hF hFg

/-- Witness for C1 on the table A, B, C with destination location (9,1): the
kept candidate is C, after the strictly farther A and B. -/
theorem scan_keeps_earliest_closest_witness :
    (∃ kv ∈ tableABC, kv.2.loc_good = true) ∧
    ((scan sq_range ⟨9, 1⟩ tableABC).found_one = true ∧
    ∃ pre E post, tableABC = pre ++ E :: post ∧ E.2.loc_good = true ∧
      (scan sq_range ⟨9, 1⟩ tableABC).next_hop = E.2.next_hop_ip ∧
      (scan sq_range ⟨9, 1⟩ tableABC).d = sq_range ⟨9, 1⟩ E.2.loc ∧
      (∀ F ∈ tableABC, F.2.loc_good = true →
        sq_range ⟨9, 1⟩ E.2.loc ≤ sq_range ⟨9, 1⟩ F.2.loc) ∧
      (∀ F ∈ pre, F.2.loc_good = true →
        sq_range ⟨9, 1⟩ E.2.loc < sq_range ⟨9, 1⟩ F.2.loc)) :=
  ⟨⟨(addrA, entryA), by decide, by decide⟩,
   scan_keeps_earliest_closest sq_range ⟨9, 1⟩ tableABC
     ⟨(addrA, entryA), by decide, by decide⟩⟩

/-- C2. If some entry has `loc_good` (so that there is a winning entry, whose
`next_hop_ip` the scan leaves in `next_hop`), that address is a key of the
table, and the entry `N` stored under it has `num_hops = 1`, then
`get_next_geographic_hop` returns true with `*best_nbr` the winning entry's
`next_hop_ip`, `*dest_eth = N.next_hop_eth` and `*dest_ip = N.next_hop_ip`. -/
theorem get_next_geographic_hop_resolves {D : Type} [LinearOrder D] [Zero D]
    (calc_range : grid_location → grid_location → D) (rtes : RTable)
    (dest : IPAddress) (dest_loc : grid_location) (out : HopOut) (N : RTEntry)
    (hgood : ∃ kv ∈ rtes, kv.2.loc_good = true)
    (hN : findp rtes (scan calc_range dest_loc rtes).next_hop = some N)
    (hhops : N.num_hops = 1) :
    get_next_geographic_hop calc_range rtes dest dest_loc out =
      { ret := true,
        out := { dest_eth := N.next_hop_eth, dest_ip := N.next_hop_ip,
                 best_nbr := (scan calc_range dest_loc rtes).next_hop },
        events := [Event.findp (scan calc_range dest_loc rtes).next_hop] } := by
  have hf := (scan_found_one_iff calc_range dest_loc rtes).2 hgood
  simp [get_next_geographic_hop, hf, hN, hhops]

/-- Witness for C2, the scenario of the specification: table A (0,0) one hop
link AA, B (5,5) two hops via A, C (10,0) one hop link CC, destination location
(9,1): the result is neighbour C with link address CC. -/
theorem get_next_geographic_hop_resolves_witness :
    (∃ kv ∈ tableABC, kv.2.loc_good = true) ∧
    findp tableABC (scan sq_range ⟨9, 1⟩ tableABC).next_hop = some entryC ∧
    entryC.num_hops = 1 ∧
    get_next_geographic_hop sq_range tableABC 9 ⟨9, 1⟩ out0 =
      { ret := true,
        out := { dest_eth := linkCC, dest_ip := addrC, best_nbr := addrC },
        events := [Event.findp addrC] } :=
  ⟨⟨(addrA, entryA), by decide, by decide⟩, by decide, by decide,
   get_next_geographic_hop_resolves sq_range tableABC 9 ⟨9, 1⟩ out0 entryC
     ⟨(addrA, entryA), by decide, by decide⟩ (by decide) (by decide)⟩

/-- C3. If the table is empty or no entry has `loc_good`, the function
`get_next_geographic_hop` returns false, leaves the three output parameters as
they were, and has no effect at all: in particular it performs no `findp`. -/
theorem get_next_geographic_hop_no_candidate {D : Type} [LinearOrder D] [Zero D]
    (calc_range : grid_location → grid_location → D) (rtes : RTable)
    (dest : IPAddress) (dest_loc : grid_location) (out : HopOut)
    (hnone : ∀ kv ∈ rtes, kv.2.loc_good = false) :
    (get_next_geographic_hop calc_range rtes dest dest_loc out).ret = false ∧
    (get_next_geographic_hop calc_range rtes dest dest_loc out).out = out ∧
    (get_next_geographic_hop calc_range rtes dest dest_loc out).events = [] ∧
    ∀ k, Event.findp k ∉ (get_next_geographic_hop calc_range rtes dest dest_loc out).events := by
  rw [get_next_geographic_hop_early_return calc_range dest_loc rtes dest out hnone]
  simp

/-- Witness for C3: the empty table, and a table whose only entry has
`loc_good` false. -/
theorem get_next_geographic_hop_no_candidate_witness :
    ((∀ kv ∈ ([] : RTable), kv.2.loc_good = false) ∧
      (get_next_geographic_hop sq_range [] 9 ⟨9, 1⟩ out0).ret = false) ∧
    ((∀ kv ∈ tableNoLoc, kv.2.loc_good = false) ∧
      (get_next_geographic_hop sq_range tableNoLoc 9 ⟨9, 1⟩ out0).ret = false ∧
      (get_next_geographic_hop sq_range tableNoLoc 9 ⟨9, 1⟩ out0).out = out0 ∧
      (get_next_geographic_hop sq_range tableNoLoc 9 ⟨9, 1⟩ out0).events = [] ∧
      ∀ k, Event.findp k ∉ (get_next_geographic_hop sq_range tableNoLoc 9 ⟨9, 1⟩ out0).events) :=
  ⟨⟨by decide, (get_next_geographic_hop_no_candidate sq_range [] 9 ⟨9, 1⟩ out0
      (by decide)).1⟩,
   by decide,
   get_next_geographic_hop_no_candidate sq_range tableNoLoc 9 ⟨9, 1⟩ out0 (by decide)⟩

/-! ## The exits of `push` -/

section PushLemmas

variable {D : Type} [LinearOrder D] [Zero D]
  (calc_range : grid_location → grid_location → D) (hops_bits : Nat)

/-- The only effects of `get_next_geographic_hop` are the lookup and chatter. -/
theorem get_next_geographic_hop_events (rtes : RTable) (dest : IPAddress)
    (dest_loc : grid_location) (out : HopOut) :
    ∀ port, outputs_on port (get_next_geographic_hop calc_range rtes dest dest_loc out).events = []
      ∧ notifications (get_next_geographic_hop calc_range rtes dest dest_loc out).events = []
      ∧ drop_reasons (get_next_geographic_hop calc_range rtes dest dest_loc out).events = []
      ∧ Event.kill ∉ (get_next_geographic_hop calc_range rtes dest dest_loc out).events := by
  intro port
  unfold get_next_geographic_hop
  simp only []
  split
  · simp [outputs_on, notifications, drop_reasons]
  · split
    · simp [outputs_on, notifications, drop_reasons]
    · split <;> simp [outputs_on, notifications, drop_reasons]

theorem outputs_on_append (port : Nat) (l₁ l₂ : List Event) :
    outputs_on port (l₁ ++ l₂) = outputs_on port l₁ ++ outputs_on port l₂ := by
  induction l₁ with
  | nil => rfl
  | cons e l ih =>
    cases e with
    | output q p =>
      simp only [List.cons_append, outputs_on]
      split <;> simp [ih]
    | _ => simp [outputs_on, ih]

theorem notifications_append (l₁ l₂ : List Event) :
    notifications (l₁ ++ l₂) = notifications l₁ ++ notifications l₂ := by
  induction l₁ with
  | nil => rfl
  | cons e l ih => cases e <;> simp [notifications, ih]

theorem drop_reasons_append (l₁ l₂ : List Event) :
    drop_reasons (l₁ ++ l₂) = drop_reasons l₁ ++ drop_reasons l₂ := by
  induction l₁ with
  | nil => rfl
  | cons e l ih =>
    cases e with
    | notify a b c d => cases b <;> cases c <;> simp [drop_reasons, ih]
    | _ => simp [drop_reasons, ih]

theorem push_unknown_type (cfg : Config) (packet : Packet)
    (htype : ¬ known_type packet.data.type) :
    push calc_range hops_bits cfg packet =
      { events := [Event.chatter (Chatter.unexpected_type packet.data.type),
                   Event.notify 0 Action.Drop (NotifyData.reason DropReason.UnknownType) 0,
                   Event.output 2 packet.data],
        mem := { orig := packet.data, copy := packet.data } } := by
  have h : packet.data.type ≠ grid_type.GRID_NBR_ENCAP ∧
      packet.data.type ≠ grid_type.GRID_LOC_REPLY := by
    simpa [known_type, not_or] using htype
  simp [push, Mem.read, h.1, h.2]

theorem push_for_us (cfg : Config) (packet : Packet)
    (htype : known_type packet.data.type) (hself : packet.data.dst_ip = cfg._ipaddr) :
    push calc_range hops_bits cfg packet =
      { events := [Event.chatter (Chatter.packet_for_us packet.data.dst_ip),
                   Event.notify packet.data.dst_ip Action.Drop
                     (NotifyData.reason DropReason.ConfigError) 0,
                   Event.kill],
        mem := { orig := packet.data, copy := packet.data } } := by
  have h : ¬ (packet.data.type ≠ grid_type.GRID_NBR_ENCAP ∧
      packet.data.type ≠ grid_type.GRID_LOC_REPLY) := by
    rcases htype with h | h <;> simp [h]
  simp only [push, Mem.read, h, if_false, hself, if_true]

theorem push_no_table (cfg : Config) (packet : Packet)
    (htype : known_type packet.data.type) (hself : packet.data.dst_ip ≠ cfg._ipaddr)
    (hrt : cfg._rt = none) :
    push calc_range hops_bits cfg packet =
      { events := [Event.chatter (Chatter.no_routing_table packet.data.dst_ip),
                   Event.notify packet.data.dst_ip Action.Drop
                     (NotifyData.reason DropReason.ConfigError) 0,
                   Event.output 1 packet.data],
        mem := { orig := packet.data, copy := packet.data } } := by
  have h : ¬ (packet.data.type ≠ grid_type.GRID_NBR_ENCAP ∧
      packet.data.type ≠ grid_type.GRID_LOC_REPLY) := by
    rcases htype with h | h <;> simp [h]
  simp only [push, Mem.read, h, if_false, hself, hrt]

theorem push_bad_loc (cfg : Config) (packet : Packet) (rtes : RTable)
    (htype : known_type packet.data.type) (hself : packet.data.dst_ip ≠ cfg._ipaddr)
    (hrt : cfg._rt = some rtes) (hloc : packet.data.dst_loc_good = false) :
    push calc_range hops_bits cfg packet =
      { events := [Event.chatter (Chatter.bad_dest_loc packet.data.dst_ip),
                   Event.notify packet.data.dst_ip Action.Drop
                     (NotifyData.reason DropReason.NoDestLoc) 0,
                   Event.output 2 packet.data],
        mem := { orig := packet.data, copy := packet.data } } := by
  have h : ¬ (packet.data.type ≠ grid_type.GRID_NBR_ENCAP ∧
      packet.data.type ≠ grid_type.GRID_LOC_REPLY) := by
    rcases htype with h | h <;> simp [h]
  simp only [push, Mem.read, h, if_false, hself, hrt, hloc, Bool.not_false, if_true]

/-- The data of `xp` right after `uniqueify`: the same content in either buffer. -/
theorem read_uniqueify (packet : Packet) :
    Mem.read { orig := packet.data, copy := packet.data } (uniqueify packet) = packet.data := by
  unfold uniqueify
  split <;> rfl

theorem push_no_hop (cfg : Config) (packet : Packet) (rtes : RTable)
    (htype : known_type packet.data.type) (hself : packet.data.dst_ip ≠ cfg._ipaddr)
    (hrt : cfg._rt = some rtes) (hloc : packet.data.dst_loc_good = true)
    (hret : (get_next_geographic_hop calc_range rtes packet.data.dst_ip
      packet.data.dst_loc { dest_eth := 0, dest_ip := 0, best_nbr := 0 }).ret = false) :
    push calc_range hops_bits cfg packet =
      { events := (get_next_geographic_hop calc_range rtes packet.data.dst_ip
            packet.data.dst_loc { dest_eth := 0, dest_ip := 0, best_nbr := 0 }).events ++
          [Event.notify packet.data.dst_ip Action.Drop
             (NotifyData.reason DropReason.NoCloserNode) 0,
           Event.output 1 packet.data],
        mem := { orig := packet.data, copy := packet.data } } := by
  have h : ¬ (packet.data.type ≠ grid_type.GRID_NBR_ENCAP ∧
      packet.data.type ≠ grid_type.GRID_LOC_REPLY) := by
    rcases htype with h | h <;> simp [h]
  simp only [push, Mem.read, h, if_false, hself, hrt, hloc, Bool.not_true,
    Bool.false_eq_true, hret]
  cases hs : packet.shared <;> simp [uniqueify, hs]

theorem push_found_hop (cfg : Config) (packet : Packet) (rtes : RTable)
    (htype : known_type packet.data.type) (hself : packet.data.dst_ip ≠ cfg._ipaddr)
    (hrt : cfg._rt = some rtes) (hloc : packet.data.dst_loc_good = true)
    (hret : (get_next_geographic_hop calc_range rtes packet.data.dst_ip
      packet.data.dst_loc { dest_eth := 0, dest_ip := 0, best_nbr := 0 }).ret = true) :
    ∃ emitted : PacketData, ∃ m : Mem,
    push calc_range hops_bits cfg packet =
      { events := (get_next_geographic_hop calc_range rtes packet.data.dst_ip
            packet.data.dst_loc { dest_eth := 0, dest_ip := 0, best_nbr := 0 }).events ++
          [Event.notify packet.data.dst_ip Action.ForwardGF
             (NotifyData.addr (get_next_geographic_hop calc_range rtes packet.data.dst_ip
               packet.data.dst_loc { dest_eth := 0, dest_ip := 0, best_nbr := 0 }).out.dest_ip)
             (get_next_geographic_hop calc_range rtes packet.data.dst_ip
               packet.data.dst_loc { dest_eth := 0, dest_ip := 0, best_nbr := 0 }).out.best_nbr,
           Event.output 0 emitted],
        mem := m } ∧
    emitted = { packet.data with
      ether_shost := cfg._ethaddr,
      ether_dhost := (get_next_geographic_hop calc_range rtes packet.data.dst_ip
        packet.data.dst_loc { dest_eth := 0, dest_ip := 0, best_nbr := 0 }).out.dest_eth,
      tx_ip := cfg._ipaddr,
      hops_travelled := if packet.shared then packet.data.hops_travelled
        else (packet.data.hops_travelled + 1) % 2 ^ hops_bits } ∧
    m.orig.hops_travelled = (packet.data.hops_travelled + 1) % 2 ^ hops_bits := by
  have h : ¬ (packet.data.type ≠ grid_type.GRID_NBR_ENCAP ∧
      packet.data.type ≠ grid_type.GRID_LOC_REPLY) := by
    rcases htype with h | h <;> simp [h]
  simp only [push, Mem.read, h, if_false, hself, hrt, hloc, Bool.not_true,
    Bool.false_eq_true, hret, if_true]
  refine ⟨_, _, rfl, ?_, ?_⟩
  · cases hs : packet.shared <;> simp [uniqueify, hs, Mem.write, Mem.read, hloc]
  · cases hs : packet.shared <;> simp [uniqueify, hs, Mem.write, Mem.read]

theorem all_outputs_append (l₁ l₂ : List Event) :
    all_outputs (l₁ ++ l₂) = all_outputs l₁ ++ all_outputs l₂ := by
  induction l₁ with
  | nil => rfl
  | cons e l ih => cases e <;> simp [all_outputs, ih]

theorem get_next_geographic_hop_all_outputs (rtes : RTable) (dest : IPAddress)
    (dest_loc : grid_location) (out : HopOut) :
    all_outputs (get_next_geographic_hop calc_range rtes dest dest_loc out).events = [] := by
  unfold get_next_geographic_hop
  simp only []
  split
  · simp [all_outputs]
  · split
    · simp [all_outputs]
    · split <;> simp [all_outputs]

/-- When `get_next_geographic_hop` returns true, the scan found a candidate, the
candidate's next hop is stored in the table with `num_hops = 1`, and the outputs
hold that entry's addresses. -/
theorem get_next_geographic_hop_ret_true (rtes : RTable) (dest : IPAddress)
    (dest_loc : grid_location) (out : HopOut)
    (hret : (get_next_geographic_hop calc_range rtes dest dest_loc out).ret = true) :
    (scan calc_range dest_loc rtes).found_one = true ∧
    ∃ N, findp rtes (scan calc_range dest_loc rtes).next_hop = some N ∧ N.num_hops = 1 ∧
      (get_next_geographic_hop calc_range rtes dest dest_loc out).out =
        { dest_eth := N.next_hop_eth, dest_ip := N.next_hop_ip,
          best_nbr := (scan calc_range dest_loc rtes).next_hop } := by
  unfold get_next_geographic_hop at hret ⊢
  simp only [] at hret ⊢
  cases hf : (scan calc_range dest_loc rtes).found_one with
  | false => simp [hf] at hret
  | true =>
    cases hN : findp rtes (scan calc_range dest_loc rtes).next_hop with
    | none => simp [hf, hN] at hret
    | some N =>
      by_cases hh : N.num_hops = 1
      · exact ⟨rfl, N, rfl, hh, by simp [hh]⟩
      · simp [hf, hN, hh] at hret

/-- The six exits of `push`. -/
theorem push_exits (cfg : Config) (packet : Packet) :
    (¬ known_type packet.data.type ∧
      (push calc_range hops_bits cfg packet).events =
        [Event.chatter (Chatter.unexpected_type packet.data.type),
         Event.notify 0 Action.Drop (NotifyData.reason DropReason.UnknownType) 0,
         Event.output 2 packet.data]) ∨
    (known_type packet.data.type ∧ packet.data.dst_ip = cfg._ipaddr ∧
      (push calc_range hops_bits cfg packet).events =
        [Event.chatter (Chatter.packet_for_us packet.data.dst_ip),
         Event.notify packet.data.dst_ip Action.Drop
           (NotifyData.reason DropReason.ConfigError) 0,
         Event.kill]) ∨
    (known_type packet.data.type ∧ packet.data.dst_ip ≠ cfg._ipaddr ∧ cfg._rt = none ∧
      (push calc_range hops_bits cfg packet).events =
        [Event.chatter (Chatter.no_routing_table packet.data.dst_ip),
         Event.notify packet.data.dst_ip Action.Drop
           (NotifyData.reason DropReason.ConfigError) 0,
         Event.output 1 packet.data]) ∨
    (∃ rtes, known_type packet.data.type ∧ packet.data.dst_ip ≠ cfg._ipaddr ∧
      cfg._rt = some rtes ∧ packet.data.dst_loc_good = false ∧
      (push calc_range hops_bits cfg packet).events =
        [Event.chatter (Chatter.bad_dest_loc packet.data.dst_ip),
         Event.notify packet.data.dst_ip Action.Drop
           (NotifyData.reason DropReason.NoDestLoc) 0,
         Event.output 2 packet.data]) ∨
    (∃ rtes, known_type packet.data.type ∧ packet.data.dst_ip ≠ cfg._ipaddr ∧
      cfg._rt = some rtes ∧ packet.data.dst_loc_good = true ∧
      (get_next_geographic_hop calc_range rtes packet.data.dst_ip
        packet.data.dst_loc { dest_eth := 0, dest_ip := 0, best_nbr := 0 }).ret = false ∧
      (push calc_range hops_bits cfg packet).events =
        (get_next_geographic_hop calc_range rtes packet.data.dst_ip
          packet.data.dst_loc { dest_eth := 0, dest_ip := 0, best_nbr := 0 }).events ++
        [Event.notify packet.data.dst_ip Action.Drop
           (NotifyData.reason DropReason.NoCloserNode) 0,
         Event.output 1 packet.data]) ∨
    (∃ rtes emitted, known_type packet.data.type ∧ packet.data.dst_ip ≠ cfg._ipaddr ∧
      cfg._rt = some rtes ∧ packet.data.dst_loc_good = true ∧
      (get_next_geographic_hop calc_range rtes packet.data.dst_ip
        packet.data.dst_loc { dest_eth := 0, dest_ip := 0, best_nbr := 0 }).ret = true ∧
      (push calc_range hops_bits cfg packet).events =
        (get_next_geographic_hop calc_range rtes packet.data.dst_ip
          packet.data.dst_loc { dest_eth := 0, dest_ip := 0, best_nbr := 0 }).events ++
        [Event.notify packet.data.dst_ip Action.ForwardGF
           (NotifyData.addr (get_next_geographic_hop calc_range rtes packet.data.dst_ip
             packet.data.dst_loc { dest_eth := 0, dest_ip := 0, best_nbr := 0 }).out.dest_ip)
           (get_next_geographic_hop calc_range rtes packet.data.dst_ip
             packet.data.dst_loc { dest_eth := 0, dest_ip := 0, best_nbr := 0 }).out.best_nbr,
         Event.output 0 emitted] ∧
      emitted.ether_dhost = (get_next_geographic_hop calc_range rtes packet.data.dst_ip
        packet.data.dst_loc { dest_eth := 0, dest_ip := 0, best_nbr := 0 }).out.dest_eth) := by
  by_cases htype : known_type packet.data.type
  swap
  · exact Or.inl ⟨htype, by rw [push_unknown_type calc_range hops_bits cfg packet htype]⟩
  by_cases hself : packet.data.dst_ip = cfg._ipaddr
  · exact Or.inr (Or.inl ⟨htype, hself,
      by rw [push_for_us calc_range hops_bits cfg packet htype hself]⟩)
  cases hrt : cfg._rt with
  | none =>
    exact Or.inr (Or.inr (Or.inl ⟨htype, hself, rfl,
      by rw [push_no_table calc_range hops_bits cfg packet htype hself hrt]⟩))
  | some rtes =>
    cases hloc : packet.data.dst_loc_good with
    | false =>
      exact Or.inr (Or.inr (Or.inr (Or.inl ⟨rtes, htype, hself, rfl, rfl,
        by rw [push_bad_loc calc_range hops_bits cfg packet rtes htype hself hrt hloc]⟩)))
    | true =>
      cases hret : (get_next_geographic_hop calc_range rtes packet.data.dst_ip
          packet.data.dst_loc { dest_eth := 0, dest_ip := 0, best_nbr := 0 }).ret with
      | false =>
        exact Or.inr (Or.inr (Or.inr (Or.inr (Or.inl ⟨rtes, htype, hself, rfl, rfl, hret,
          by rw [push_no_hop calc_range hops_bits cfg packet rtes htype hself hrt hloc
            hret]⟩))))
      | true =>
        obtain ⟨emitted, m, hp, hem, _⟩ :=
          push_found_hop calc_range hops_bits cfg packet rtes htype hself hrt hloc hret
        exact Or.inr (Or.inr (Or.inr (Or.inr (Or.inr ⟨rtes, emitted, htype, hself, rfl,
          rfl, hret, by rw [hp], by rw [hem]⟩))))

end PushLemmas

/-! ## Claims about consistency failures and the order of checks -/

/-- C4 (counterexample). In the table holding only B (two hops via A, A absent),
B is the closest entry and its next hop A is not a key; still the return value
and the outputs of `get_next_geographic_hop` are those of the ordinary no-route
call on a table without candidates, and `push` sends the same notification and
emits the packet on the same output. -/
theorem consistency_failure_same_value_as_no_route :
    (∃ kv ∈ tableB, kv.2.loc_good = true) ∧
    findp tableB (scan sq_range ⟨9, 1⟩ tableB).next_hop = none ∧
    (get_next_geographic_hop sq_range tableB 9 ⟨9, 1⟩ out0).ret =
      (get_next_geographic_hop sq_range tableNoLoc 9 ⟨9, 1⟩ out0).ret ∧
    (get_next_geographic_hop sq_range tableB 9 ⟨9, 1⟩ out0).out =
      (get_next_geographic_hop sq_range tableNoLoc 9 ⟨9, 1⟩ out0).out ∧
    notifications (push sq_range 8 (cfgWith (some tableB)) ⟨false, pkt0⟩).events =
      notifications (push sq_range 8 (cfgWith (some tableNoLoc)) ⟨false, pkt0⟩).events ∧
    outputs_on 1 (push sq_range 8 (cfgWith (some tableB)) ⟨false, pkt0⟩).events =
      outputs_on 1 (push sq_range 8 (cfgWith (some tableNoLoc)) ⟨false, pkt0⟩).events := by
  refine ⟨⟨(addrB, entryB), by decide, by decide⟩, by decide, by decide, by decide, ?_, ?_⟩
  · rfl
  · rfl

/-- C4 (amended). For every table `rtes` with a `loc_good` entry in which the
winning entry's `next_hop_ip` is not a key, or is a key whose entry has
`num_hops ≠ 1`, `get_next_geographic_hop` returns false and writes no output:
never a successful next hop, and the same value as the no-route result on a
table `rtes1` without `loc_good` entries. The failure is told apart only by the
chatter after the lookup, which the no-route exit does not emit. For a packet
that passes the four checks, `push` reports `Drop`/`NoCloserNode` and emits the
unchanged packet on output 1, exactly as for no-route. -/
theorem consistency_failure_only_in_chatter {D : Type} [LinearOrder D] [Zero D]
    (calc_range : grid_location → grid_location → D) (hops_bits : Nat)
    (rtes rtes1 : RTable) (dest : IPAddress) (out : HopOut)
    (ethaddr : EtherAddress) (ipaddr : IPAddress) (packet : Packet)
    (hgood : ∃ kv ∈ rtes, kv.2.loc_good = true)
    (hbad : findp rtes (scan calc_range packet.data.dst_loc rtes).next_hop = none ∨
      ∃ N, findp rtes (scan calc_range packet.data.dst_loc rtes).next_hop = some N ∧
        N.num_hops ≠ 1)
    (hnone : ∀ kv ∈ rtes1, kv.2.loc_good = false)
    (htype : known_type packet.data.type) (hself : packet.data.dst_ip ≠ ipaddr)
    (hloc : packet.data.dst_loc_good = true) :
    (get_next_geographic_hop calc_range rtes dest packet.data.dst_loc out).ret = false ∧
    (get_next_geographic_hop calc_range rtes dest packet.data.dst_loc out).out = out ∧
    (get_next_geographic_hop calc_range rtes1 dest packet.data.dst_loc out).ret = false ∧
    (get_next_geographic_hop calc_range rtes1 dest packet.data.dst_loc out).out = out ∧
    ((get_next_geographic_hop calc_range rtes dest packet.data.dst_loc out).events =
        [Event.findp (scan calc_range packet.data.dst_loc rtes).next_hop,
         Event.chatter Chatter.no_next_hop_entry] ∨
      (get_next_geographic_hop calc_range rtes dest packet.data.dst_loc out).events =
        [Event.findp (scan calc_range packet.data.dst_loc rtes).next_hop,
         Event.chatter Chatter.next_hop_not_one_hop]) ∧
    (get_next_geographic_hop calc_range rtes1 dest packet.data.dst_loc out).events = [] ∧
    notifications (push calc_range hops_bits
        { _ethaddr := ethaddr, _ipaddr := ipaddr, _rt := some rtes } packet).events =
      [Event.notify packet.data.dst_ip Action.Drop
        (NotifyData.reason DropReason.NoCloserNode) 0] ∧
    notifications (push calc_range hops_bits
        { _ethaddr := ethaddr, _ipaddr := ipaddr, _rt := some rtes1 } packet).events =
      [Event.notify packet.data.dst_ip Action.Drop
        (NotifyData.reason DropReason.NoCloserNode) 0] ∧
    outputs_on 1 (push calc_range hops_bits
        { _ethaddr := ethaddr, _ipaddr := ipaddr, _rt := some rtes } packet).events =
      [packet.data] ∧
    outputs_on 1 (push calc_range hops_bits
        { _ethaddr := ethaddr, _ipaddr := ipaddr, _rt := some rtes1 } packet).events =
      [packet.data] ∧
    outputs_on 0 (push calc_range hops_bits
        { _ethaddr := ethaddr, _ipaddr := ipaddr, _rt := some rtes } packet).events = [] := by
  have hf := (scan_found_one_iff calc_range packet.data.dst_loc rtes).2 hgood
  have hr : ∀ (d : IPAddress) (o : HopOut),
      (get_next_geographic_hop calc_range rtes d packet.data.dst_loc o).ret = false ∧
      (get_next_geographic_hop calc_range rtes d packet.data.dst_loc o).out = o ∧
      ((get_next_geographic_hop calc_range rtes d packet.data.dst_loc o).events =
          [Event.findp (scan calc_range packet.data.dst_loc rtes).next_hop,
           Event.chatter Chatter.no_next_hop_entry] ∨
        (get_next_geographic_hop calc_range rtes d packet.data.dst_loc o).events =
          [Event.findp (scan calc_range packet.data.dst_loc rtes).next_hop,
           Event.chatter Chatter.next_hop_not_one_hop]) := by
    intro d o
    rcases hbad with hN | ⟨N, hN, hh⟩
    · simp [get_next_geographic_hop, hf, hN]
    · simp [get_next_geographic_hop, hf, hN, hh]
  have hr1 : ∀ (d : IPAddress) (o : HopOut),
      (get_next_geographic_hop calc_range rtes1 d packet.data.dst_loc o).ret = false ∧
      (get_next_geographic_hop calc_range rtes1 d packet.data.dst_loc o).out = o ∧
      (get_next_geographic_hop calc_range rtes1 d packet.data.dst_loc o).events = [] := by
    intro d o
    rw [get_next_geographic_hop_early_return calc_range packet.data.dst_loc rtes1 d o hnone]
    simp
  have hp := push_no_hop calc_range hops_bits
    { _ethaddr := ethaddr, _ipaddr := ipaddr, _rt := some rtes } packet rtes htype hself rfl
    hloc (hr _ _).1
  have hp1 := push_no_hop calc_range hops_bits
    { _ethaddr := ethaddr, _ipaddr := ipaddr, _rt := some rtes1 } packet rtes1 htype hself rfl
    hloc (hr1 _ _).1
  have he := get_next_geographic_hop_events calc_range rtes packet.data.dst_ip
    packet.data.dst_loc { dest_eth := 0, dest_ip := 0, best_nbr := 0 }
  have he1 := get_next_geographic_hop_events calc_range rtes1 packet.data.dst_ip
    packet.data.dst_loc { dest_eth := 0, dest_ip := 0, best_nbr := 0 }
  refine ⟨(hr dest out).1, (hr dest out).2.1, (hr1 dest out).1, (hr1 dest out).2.1,
    (hr dest out).2.2, (hr1 dest out).2.2, ?_, ?_, ?_, ?_, ?_⟩
  · rw [hp, notifications_append, (he 0).2.1]; rfl
  · rw [hp1, notifications_append, (he1 0).2.1]; rfl
  · rw [hp, outputs_on_append, (he 1).1]; rfl
  · rw [hp1, outputs_on_append, (he1 1).1]; rfl
  · rw [hp, outputs_on_append, (he 0).1]; rfl

/-- Witness for C4 (amended): the table holding only B, compared with a table
without candidates, for the packet `pkt0`. -/
theorem consistency_failure_only_in_chatter_witness :
    (∃ kv ∈ tableB, kv.2.loc_good = true) ∧
    findp tableB (scan sq_range pkt0.dst_loc tableB).next_hop = none ∧
    (∀ kv ∈ tableNoLoc, kv.2.loc_good = false) ∧
    (get_next_geographic_hop sq_range tableB 9 pkt0.dst_loc out0).ret = false ∧
    (get_next_geographic_hop sq_range tableB 9 pkt0.dst_loc out0).events =
      [Event.findp addrA, Event.chatter Chatter.no_next_hop_entry] ∧
    (get_next_geographic_hop sq_range tableNoLoc 9 pkt0.dst_loc out0).events = [] ∧
    notifications (push sq_range 8 (cfgWith (some tableB)) ⟨false, pkt0⟩).events =
      [Event.notify 9 Action.Drop (NotifyData.reason DropReason.NoCloserNode) 0] :=
  have h := consistency_failure_only_in_chatter sq_range 8 tableB tableNoLoc 9 out0 255 100
    ⟨false, pkt0⟩ ⟨(addrB, entryB), by decide, by decide⟩ (Or.inl (by decide)) (by decide)
    (Or.inl rfl) (by decide) rfl
  ⟨⟨(addrB, entryB), by decide, by decide⟩, by decide, by decide, h.1, by decide,
    h.2.2.2.2.2.1, h.2.2.2.2.2.2.1⟩

/-- C5. `push` applies its checks in the order type, self-address, table
present, destination location valid, and the first failing one fixes all the
effects: an unaccepted type sends the packet to output 2; otherwise a packet for
the local IP address is killed; otherwise, without a table, the packet goes to
output 1; otherwise a bad destination location sends it to output 2. In these
four exits the effects contain no table lookup. Only when all four checks pass
do the effects of `get_next_geographic_hop` appear, followed by the forward on
output 0 or the drop on output 1. -/
theorem push_check_order {D : Type} [LinearOrder D] [Zero D]
    (calc_range : grid_location → grid_location → D) (hops_bits : Nat)
    (cfg : Config) (packet : Packet) :
    (¬ known_type packet.data.type →
      (push calc_range hops_bits cfg packet).events =
        [Event.chatter (Chatter.unexpected_type packet.data.type),
         Event.notify 0 Action.Drop (NotifyData.reason DropReason.UnknownType) 0,
         Event.output 2 packet.data]) ∧
    (known_type packet.data.type → packet.data.dst_ip = cfg._ipaddr →
      (push calc_range hops_bits cfg packet).events =
        [Event.chatter (Chatter.packet_for_us packet.data.dst_ip),
         Event.notify packet.data.dst_ip Action.Drop
           (NotifyData.reason DropReason.ConfigError) 0,
         Event.kill]) ∧
    (known_type packet.data.type → packet.data.dst_ip ≠ cfg._ipaddr → cfg._rt = none →
      (push calc_range hops_bits cfg packet).events =
        [Event.chatter (Chatter.no_routing_table packet.data.dst_ip),
         Event.notify packet.data.dst_ip Action.Drop
           (NotifyData.reason DropReason.ConfigError) 0,
         Event.output 1 packet.data]) ∧
    (∀ rtes, known_type packet.data.type → packet.data.dst_ip ≠ cfg._ipaddr →
      cfg._rt = some rtes → packet.data.dst_loc_good = false →
      (push calc_range hops_bits cfg packet).events =
        [Event.chatter (Chatter.bad_dest_loc packet.data.dst_ip),
         Event.notify packet.data.dst_ip Action.Drop
           (NotifyData.reason DropReason.NoDestLoc) 0,
         Event.output 2 packet.data]) ∧
    (∀ rtes, known_type packet.data.type → packet.data.dst_ip ≠ cfg._ipaddr →
      cfg._rt = some rtes → packet.data.dst_loc_good = true →
      ∃ port emitted,
        (push calc_range hops_bits cfg packet).events =
          (get_next_geographic_hop calc_range rtes packet.data.dst_ip packet.data.dst_loc
            { dest_eth := 0, dest_ip := 0, best_nbr := 0 }).events ++
          [Event.notify packet.data.dst_ip
            (if (get_next_geographic_hop calc_range rtes packet.data.dst_ip
                packet.data.dst_loc { dest_eth := 0, dest_ip := 0, best_nbr := 0 }).ret
              then Action.ForwardGF else Action.Drop)
            (if (get_next_geographic_hop calc_range rtes packet.data.dst_ip
                packet.data.dst_loc { dest_eth := 0, dest_ip := 0, best_nbr := 0 }).ret
              then NotifyData.addr (get_next_geographic_hop calc_range rtes
                packet.data.dst_ip packet.data.dst_loc
                { dest_eth := 0, dest_ip := 0, best_nbr := 0 }).out.dest_ip
              else NotifyData.reason DropReason.NoCloserNode)
            (if (get_next_geographic_hop calc_range rtes packet.data.dst_ip
                packet.data.dst_loc { dest_eth := 0, dest_ip := 0, best_nbr := 0 }).ret
              then (get_next_geographic_hop calc_range rtes packet.data.dst_ip
                packet.data.dst_loc { dest_eth := 0, dest_ip := 0, best_nbr := 0 }).out.best_nbr
              else 0),
           Event.output port emitted] ∧
        port = (if (get_next_geographic_hop calc_range rtes packet.data.dst_ip
                packet.data.dst_loc { dest_eth := 0, dest_ip := 0, best_nbr := 0 }).ret
              then 0 else 1)) := by
  refine ⟨?_, ?_, ?_, ?_, ?_⟩
  · intro h
    rw [push_unknown_type calc_range hops_bits cfg packet h]
  · intro h1 h2
    rw [push_for_us calc_range hops_bits cfg packet h1 h2]
  · intro h1 h2 h3
    rw [push_no_table calc_range hops_bits cfg packet h1 h2 h3]
  · intro rtes h1 h2 h3 h4
    rw [push_bad_loc calc_range hops_bits cfg packet rtes h1 h2 h3 h4]
  · intro rtes h1 h2 h3 h4
    cases hret : (get_next_geographic_hop calc_range rtes packet.data.dst_ip
        packet.data.dst_loc { dest_eth := 0, dest_ip := 0, best_nbr := 0 }).ret with
    | false =>
      refine ⟨1, packet.data, ?_, by simp⟩
      rw [push_no_hop calc_range hops_bits cfg packet rtes h1 h2 h3 h4 hret]
      simp
    | true =>
      obtain ⟨emitted, m, hp, _, _⟩ :=
        push_found_hop calc_range hops_bits cfg packet rtes h1 h2 h3 h4 hret
      refine ⟨0, emitted, ?_, by simp⟩
      rw [hp]
      simp

/-- Witness for C5: one packet for each of the four rejecting checks. The second
packet also has a bad destination location and no table is configured, yet it
is killed; the third has a bad destination location, yet goes to output 1. -/
theorem push_check_order_witness :
    (¬ known_type pktOther.type ∧
      (push sq_range 8 (cfgWith none) ⟨false, pktOther⟩).events =
        [Event.chatter (Chatter.unexpected_type (grid_type.GRID_OTHER 1)),
         Event.notify 0 Action.Drop (NotifyData.reason DropReason.UnknownType) 0,
         Event.output 2 pktOther]) ∧
    (push sq_range 8 (cfgWith none)
        ⟨false, { pkt0 with dst_ip := 100, dst_loc_good := false }⟩).events =
      [Event.chatter (Chatter.packet_for_us 100),
       Event.notify 100 Action.Drop (NotifyData.reason DropReason.ConfigError) 0,
       Event.kill] ∧
    (push sq_range 8 (cfgWith none) ⟨false, { pkt0 with dst_loc_good := false }⟩).events =
      [Event.chatter (Chatter.no_routing_table 9),
       Event.notify 9 Action.Drop (NotifyData.reason DropReason.ConfigError) 0,
       Event.output 1 { pkt0 with dst_loc_good := false }] ∧
    (push sq_range 8 (cfgWith (some tableABC))
        ⟨false, { pkt0 with dst_loc_good := false }⟩).events =
      [Event.chatter (Chatter.bad_dest_loc 9),
       Event.notify 9 Action.Drop (NotifyData.reason DropReason.NoDestLoc) 0,
       Event.output 2 { pkt0 with dst_loc_good := false }] :=
  ⟨⟨by decide, (push_check_order sq_range 8 (cfgWith none) ⟨false, pktOther⟩).1 (by decide)⟩,
   (push_check_order sq_range 8 (cfgWith none)
      ⟨false, { pkt0 with dst_ip := 100, dst_loc_good := false }⟩).2.1 (Or.inl rfl) rfl,
   (push_check_order sq_range 8 (cfgWith none)
      ⟨false, { pkt0 with dst_loc_good := false }⟩).2.2.1 (Or.inl rfl) (by decide) rfl,
   (push_check_order sq_range 8 (cfgWith (some tableABC))
      ⟨false, { pkt0 with dst_loc_good := false }⟩).2.2.2.1 tableABC (Or.inl rfl)
      (by decide) rfl rfl⟩

/-! ## Claims about the forwarded packet and the drop exits -/

/-- C6 (the code at a shared packet). `pkt0`, held in a shared buffer, is
forwarded with table A, B, C: the packet emitted on output 0 is the private copy
with `ether_shost`, `ether_dhost` and `tx_ip` rewritten, but its
`hops_travelled` is still the input value 4; the increment went through `encap`
into the original buffer, which now holds 5. -/
theorem push_shared_packet_keeps_hops_travelled :
    (push sq_range 8 (cfgWith (some tableABC)) ⟨true, pkt0⟩).events =
      [Event.findp addrC,
       Event.notify 9 Action.ForwardGF (NotifyData.addr addrC) addrC,
       Event.output 0 { pkt0 with ether_shost := 255, ether_dhost := linkCC, tx_ip := 100 }] ∧
    outputs_on 0 (push sq_range 8 (cfgWith (some tableABC)) ⟨true, pkt0⟩).events ≠
      [{ pkt0 with ether_shost := 255, ether_dhost := linkCC, tx_ip := 100,
                   hops_travelled := pkt0.hops_travelled + 1 }] ∧
    (push sq_range 8 (cfgWith (some tableABC)) ⟨true, pkt0⟩).mem.orig =
      { pkt0 with hops_travelled := 5 } := by
  refine ⟨by rfl, ?_, by rfl⟩
  decide

/-- C7 (counterexample). A packet of an unaccepted type whose destination
address is the local IP address is not killed: it is emitted on output 2. -/
theorem self_addressed_unknown_type_is_emitted :
    pktOther.dst_ip = (cfgWith (some tableABC))._ipaddr ∧
    outputs_on 2 (push sq_range 8 (cfgWith (some tableABC)) ⟨false, pktOther⟩).events =
      [pktOther] ∧
    Event.kill ∉ (push sq_range 8 (cfgWith (some tableABC)) ⟨false, pktOther⟩).events := by
  decide

/-- C7 (amended). For every packet of an accepted type (`GRID_NBR_ENCAP` or
`GRID_LOC_REPLY`) whose destination address is the local IP address, whatever
its other fields and whatever the configuration, `push` kills the packet and
emits nothing on any output. -/
theorem push_kills_packet_for_us {D : Type} [LinearOrder D] [Zero D]
    (calc_range : grid_location → grid_location → D) (hops_bits : Nat)
    (cfg : Config) (packet : Packet)
    (htype : known_type packet.data.type) (hself : packet.data.dst_ip = cfg._ipaddr) :
    Event.kill ∈ (push calc_range hops_bits cfg packet).events ∧
    ∀ port p, Event.output port p ∉ (push calc_range hops_bits cfg packet).events := by
  rw [push_for_us calc_range hops_bits cfg packet htype hself]
  simp

/-- Witness for C7 (amended): `pkt0` readdressed to the local node 100. -/
theorem push_kills_packet_for_us_witness :
    known_type ({ pkt0 with dst_ip := 100 } : PacketData).type ∧
    Event.kill ∈ (push sq_range 8 (cfgWith (some tableABC))
      ⟨true, { pkt0 with dst_ip := 100 }⟩).events ∧
    ∀ port p, Event.output port p ∉ (push sq_range 8 (cfgWith (some tableABC))
      ⟨true, { pkt0 with dst_ip := 100 }⟩).events :=
  ⟨Or.inl rfl, push_kills_packet_for_us sq_range 8 (cfgWith (some tableABC))
    ⟨true, { pkt0 with dst_ip := 100 }⟩ (Or.inl rfl) rfl⟩

/-- C8 (counterexample). With no route table configured, a packet of an
unaccepted type is reported with reason `UnknownType` and emitted on output 2,
and a packet for the local IP address is killed; neither reaches output 1. -/
theorem no_table_not_regardless_of_content :
    (cfgWith none)._rt = none ∧
    drop_reasons (push sq_range 8 (cfgWith none) ⟨false, pktOther⟩).events =
      [DropReason.UnknownType] ∧
    outputs_on 1 (push sq_range 8 (cfgWith none) ⟨false, pktOther⟩).events = [] ∧
    outputs_on 2 (push sq_range 8 (cfgWith none) ⟨false, pktOther⟩).events = [pktOther] ∧
    outputs_on 1 (push sq_range 8 (cfgWith none)
      ⟨false, { pkt0 with dst_ip := 100 }⟩).events = [] ∧
    Event.kill ∈ (push sq_range 8 (cfgWith none) ⟨false, { pkt0 with dst_ip := 100 }⟩).events := by
  decide

/-- C8 (amended). When no route table is configured, for every packet of an
accepted type whose destination address is not the local IP address, whatever
the rest of its content, `push` notifies a drop with reason `ConfigError` (the
code used for the missing table), leaves the packet unmutated and emits it on
output 1, and on no other output. -/
theorem push_without_table {D : Type} [LinearOrder D] [Zero D]
    (calc_range : grid_location → grid_location → D) (hops_bits : Nat)
    (cfg : Config) (packet : Packet) (hrt : cfg._rt = none)
    (htype : known_type packet.data.type) (hself : packet.data.dst_ip ≠ cfg._ipaddr) :
    notifications (push calc_range hops_bits cfg packet).events =
      [Event.notify packet.data.dst_ip Action.Drop
        (NotifyData.reason DropReason.ConfigError) 0] ∧
    outputs_on 1 (push calc_range hops_bits cfg packet).events = [packet.data] ∧
    outputs_on 0 (push calc_range hops_bits cfg packet).events = [] ∧
    outputs_on 2 (push calc_range hops_bits cfg packet).events = [] ∧
    Event.kill ∉ (push calc_range hops_bits cfg packet).events ∧
    (push calc_range hops_bits cfg packet).mem = { orig := packet.data, copy := packet.data } := by
  rw [push_no_table calc_range hops_bits cfg packet htype hself hrt]
  simp [notifications, outputs_on]

/-- Witness for C8 (amended): `pkt0` with no table configured. -/
theorem push_without_table_witness :
    (cfgWith none)._rt = none ∧ known_type pkt0.type ∧ pkt0.dst_ip ≠ (cfgWith none)._ipaddr ∧
    notifications (push sq_range 8 (cfgWith none) ⟨false, pkt0⟩).events =
      [Event.notify 9 Action.Drop (NotifyData.reason DropReason.ConfigError) 0] ∧
    outputs_on 1 (push sq_range 8 (cfgWith none) ⟨false, pkt0⟩).events = [pkt0] :=
  have h := push_without_table sq_range 8 (cfgWith none) ⟨false, pkt0⟩ rfl (Or.inl rfl)
    (by decide)
  ⟨rfl, Or.inl rfl, by decide, h.1, h.2.1⟩

/-- C9. For every packet that passes all four checks and for which
`get_next_geographic_hop` returns false, `push` notifies a drop with reason
`NoCloserNode` for the packet's destination, emits the unchanged packet on
output 1, and emits nothing on outputs 0 and 2. -/
theorem push_no_closer_node {D : Type} [LinearOrder D] [Zero D]
    (calc_range : grid_location → grid_location → D) (hops_bits : Nat)
    (cfg : Config) (packet : Packet) (rtes : RTable)
    (htype : known_type packet.data.type) (hself : packet.data.dst_ip ≠ cfg._ipaddr)
    (hrt : cfg._rt = some rtes) (hloc : packet.data.dst_loc_good = true)
    (hret : (get_next_geographic_hop calc_range rtes packet.data.dst_ip
      packet.data.dst_loc { dest_eth := 0, dest_ip := 0, best_nbr := 0 }).ret = false) :
    notifications (push calc_range hops_bits cfg packet).events =
      [Event.notify packet.data.dst_ip Action.Drop
        (NotifyData.reason DropReason.NoCloserNode) 0] ∧
    outputs_on 1 (push calc_range hops_bits cfg packet).events = [packet.data] ∧
    outputs_on 0 (push calc_range hops_bits cfg packet).events = [] ∧
    outputs_on 2 (push calc_range hops_bits cfg packet).events = [] := by
  have he := get_next_geographic_hop_events calc_range rtes packet.data.dst_ip
    packet.data.dst_loc { dest_eth := 0, dest_ip := 0, best_nbr := 0 }
  rw [push_no_hop calc_range hops_bits cfg packet rtes htype hself hrt hloc hret]
  refine ⟨?_, ?_, ?_, ?_⟩
  · rw [notifications_append, (he 0).2.1]; rfl
  · rw [outputs_on_append, (he 1).1]; rfl
  · rw [outputs_on_append, (he 0).1]; rfl
  · rw [outputs_on_append, (he 2).1]; rfl

/-- Witness for C9: `pkt0` with a table whose only entry has no trusted
location. -/
theorem push_no_closer_node_witness :
    known_type pkt0.type ∧ pkt0.dst_ip ≠ (cfgWith (some tableNoLoc))._ipaddr ∧
    pkt0.dst_loc_good = true ∧
    (get_next_geographic_hop sq_range tableNoLoc pkt0.dst_ip pkt0.dst_loc
      { dest_eth := 0, dest_ip := 0, best_nbr := 0 }).ret = false ∧
    notifications (push sq_range 8 (cfgWith (some tableNoLoc)) ⟨true, pkt0⟩).events =
      [Event.notify 9 Action.Drop (NotifyData.reason DropReason.NoCloserNode) 0] ∧
    outputs_on 1 (push sq_range 8 (cfgWith (some tableNoLoc)) ⟨true, pkt0⟩).events = [pkt0] ∧
    outputs_on 0 (push sq_range 8 (cfgWith (some tableNoLoc)) ⟨true, pkt0⟩).events = [] ∧
    outputs_on 2 (push sq_range 8 (cfgWith (some tableNoLoc)) ⟨true, pkt0⟩).events = [] :=
  ⟨Or.inl rfl, by decide, rfl, by decide,
   push_no_closer_node sq_range 8 (cfgWith (some tableNoLoc)) ⟨true, pkt0⟩ tableNoLoc
     (Or.inl rfl) (by decide) rfl rfl (by decide)⟩

/-! ## Drop reasons -/

/-- C10 (counterexample). The packet `pkt0` is self-addressed for a node with IP
address 9 and meets a missing table at node 100; both notifications carry the
same reason, `ConfigError`. -/
theorem self_addressed_and_no_table_share_reason :
    pkt0.dst_ip = ({ _ethaddr := 255, _ipaddr := 9, _rt := some tableABC } : Config)._ipaddr ∧
    pkt0.dst_ip ≠ (cfgWith none)._ipaddr ∧ (cfgWith none)._rt = none ∧
    drop_reasons (push sq_range 8 { _ethaddr := 255, _ipaddr := 9, _rt := some tableABC }
      ⟨false, pkt0⟩).events = [DropReason.ConfigError] ∧
    drop_reasons (push sq_range 8 (cfgWith none) ⟨false, pkt0⟩).events =
      [DropReason.ConfigError] ∧
    notifications (push sq_range 8 { _ethaddr := 255, _ipaddr := 9, _rt := some tableABC }
      ⟨false, pkt0⟩).events =
    notifications (push sq_range 8 (cfgWith none) ⟨false, pkt0⟩).events := by
  decide

/-- C10 (amended). `push` notifies exactly one drop reason on each rejecting
exit: `UnknownType` for an unaccepted type, `ConfigError` both for a
self-addressed packet and for a missing route table, `NoDestLoc` for an invalid
destination location, `NoCloserNode` when no next hop is found. These four codes
are pairwise distinct, so the reason identifies the rejecting check except that
self-addressed and no-table are reported with the same code. -/
theorem push_drop_reasons {D : Type} [LinearOrder D] [Zero D]
    (calc_range : grid_location → grid_location → D) (hops_bits : Nat)
    (cfg : Config) (packet : Packet) :
    (¬ known_type packet.data.type →
      drop_reasons (push calc_range hops_bits cfg packet).events = [DropReason.UnknownType]) ∧
    (known_type packet.data.type → packet.data.dst_ip = cfg._ipaddr →
      drop_reasons (push calc_range hops_bits cfg packet).events = [DropReason.ConfigError]) ∧
    (known_type packet.data.type → packet.data.dst_ip ≠ cfg._ipaddr → cfg._rt = none →
      drop_reasons (push calc_range hops_bits cfg packet).events = [DropReason.ConfigError]) ∧
    (∀ rtes, known_type packet.data.type → packet.data.dst_ip ≠ cfg._ipaddr →
      cfg._rt = some rtes → packet.data.dst_loc_good = false →
      drop_reasons (push calc_range hops_bits cfg packet).events = [DropReason.NoDestLoc]) ∧
    (∀ rtes, known_type packet.data.type → packet.data.dst_ip ≠ cfg._ipaddr →
      cfg._rt = some rtes → packet.data.dst_loc_good = true →
      (get_next_geographic_hop calc_range rtes packet.data.dst_ip
        packet.data.dst_loc { dest_eth := 0, dest_ip := 0, best_nbr := 0 }).ret = false →
      drop_reasons (push calc_range hops_bits cfg packet).events =
        [DropReason.NoCloserNode]) ∧
    [DropReason.UnknownType, DropReason.ConfigError, DropReason.NoDestLoc,
      DropReason.NoCloserNode].Nodup := by
  refine ⟨?_, ?_, ?_, ?_, ?_, by decide⟩
  · intro h
    rw [push_unknown_type calc_range hops_bits cfg packet h]; rfl
  · intro h1 h2
    rw [push_for_us calc_range hops_bits cfg packet h1 h2]; rfl
  · intro h1 h2 h3
    rw [push_no_table calc_range hops_bits cfg packet h1 h2 h3]; rfl
  · intro rtes h1 h2 h3 h4
    rw [push_bad_loc calc_range hops_bits cfg packet rtes h1 h2 h3 h4]; rfl
  · intro rtes h1 h2 h3 h4 h5
    have he := get_next_geographic_hop_events calc_range rtes packet.data.dst_ip
      packet.data.dst_loc { dest_eth := 0, dest_ip := 0, best_nbr := 0 }
    rw [push_no_hop calc_range hops_bits cfg packet rtes h1 h2 h3 h4 h5,
      drop_reasons_append, (he 0).2.2.1]
    rfl

/-- Witness for C10 (amended): the five exits on concrete packets. -/
theorem push_drop_reasons_witness :
    (¬ known_type pktOther.type ∧
      drop_reasons (push sq_range 8 (cfgWith none) ⟨false, pktOther⟩).events =
        [DropReason.UnknownType]) ∧
    drop_reasons (push sq_range 8 (cfgWith none)
      ⟨false, { pkt0 with dst_ip := 100 }⟩).events = [DropReason.ConfigError] ∧
    drop_reasons (push sq_range 8 (cfgWith none) ⟨false, pkt0⟩).events =
      [DropReason.ConfigError] ∧
    drop_reasons (push sq_range 8 (cfgWith (some tableABC))
      ⟨false, { pkt0 with dst_loc_good := false }⟩).events = [DropReason.NoDestLoc] ∧
    drop_reasons (push sq_range 8 (cfgWith (some tableNoLoc)) ⟨false, pkt0⟩).events =
      [DropReason.NoCloserNode] :=
  ⟨⟨by decide, (push_drop_reasons sq_range 8 (cfgWith none) ⟨false, pktOther⟩).1 (by decide)⟩,
   (push_drop_reasons sq_range 8 (cfgWith none)
      ⟨false, { pkt0 with dst_ip := 100 }⟩).2.1 (Or.inl rfl) rfl,
   (push_drop_reasons sq_range 8 (cfgWith none) ⟨false, pkt0⟩).2.2.1 (Or.inl rfl)
      (by decide) rfl,
   (push_drop_reasons sq_range 8 (cfgWith (some tableABC))
      ⟨false, { pkt0 with dst_loc_good := false }⟩).2.2.2.1 tableABC (Or.inl rfl)
      (by decide) rfl rfl,
   (push_drop_reasons sq_range 8 (cfgWith (some tableNoLoc)) ⟨false, pkt0⟩).2.2.2.2.1
      tableNoLoc (Or.inl rfl) (by decide) rfl rfl (by decide)⟩

/-! ## One notification, at most one output, verified forwarding -/

/-- C11. For every packet and every configuration, one call of `push` calls
`notify_route_cbs` exactly once, whichever of the six exits is taken, and
pushes the packet to at most one output. -/
theorem push_notifies_exactly_once {D : Type} [LinearOrder D] [Zero D]
    (calc_range : grid_location → grid_location → D) (hops_bits : Nat)
    (cfg : Config) (packet : Packet) :
    (notifications (push calc_range hops_bits cfg packet).events).length = 1 ∧
    (all_outputs (push calc_range hops_bits cfg packet).events).length ≤ 1 := by
  rcases push_exits calc_range hops_bits cfg packet with
    ⟨_, he⟩ | ⟨_, _, he⟩ | ⟨_, _, _, he⟩ | ⟨rtes, _, _, _, _, he⟩ |
    ⟨rtes, _, _, _, _, _, he⟩ | ⟨rtes, emitted, _, _, _, _, _, he, _⟩
  · rw [he]; simp [notifications, all_outputs]
  · rw [he]; simp [notifications, all_outputs]
  · rw [he]; simp [notifications, all_outputs]
  · rw [he]; simp [notifications, all_outputs]
  · rw [he, notifications_append, all_outputs_append,
      (get_next_geographic_hop_events calc_range rtes _ _ _ 0).2.1,
      get_next_geographic_hop_all_outputs]
    simp [notifications, all_outputs]
  · rw [he, notifications_append, all_outputs_append,
      (get_next_geographic_hop_events calc_range rtes _ _ _ 0).2.1,
      get_next_geographic_hop_all_outputs]
    simp [notifications, all_outputs]

/-- C12. Whenever `push` emits a packet on output 0, a table is configured, the
scan found a winning entry, the table stores an entry `N` with `num_hops = 1`
under the winning entry's `next_hop_ip`, and the emitted packet's `ether_dhost`
is `N.next_hop_eth`. If no such entry exists, nothing is emitted on output 0. -/
theorem push_forwards_only_verified {D : Type} [LinearOrder D] [Zero D]
    (calc_range : grid_location → grid_location → D) (hops_bits : Nat)
    (cfg : Config) (packet : Packet) :
    (∀ p, p ∈ outputs_on 0 (push calc_range hops_bits cfg packet).events →
      ∃ rtes N, cfg._rt = some rtes ∧
        (scan calc_range packet.data.dst_loc rtes).found_one = true ∧
        findp rtes (scan calc_range packet.data.dst_loc rtes).next_hop = some N ∧
        N.num_hops = 1 ∧ p.ether_dhost = N.next_hop_eth) ∧
    ((¬ ∃ rtes N, cfg._rt = some rtes ∧
        findp rtes (scan calc_range packet.data.dst_loc rtes).next_hop = some N ∧
        N.num_hops = 1) →
      outputs_on 0 (push calc_range hops_bits cfg packet).events = []) := by
  have key : ∀ p, p ∈ outputs_on 0 (push calc_range hops_bits cfg packet).events →
      ∃ rtes N, cfg._rt = some rtes ∧
        (scan calc_range packet.data.dst_loc rtes).found_one = true ∧
        findp rtes (scan calc_range packet.data.dst_loc rtes).next_hop = some N ∧
        N.num_hops = 1 ∧ p.ether_dhost = N.next_hop_eth := by
    intro p hp
    rcases push_exits calc_range hops_bits cfg packet with
      ⟨_, he⟩ | ⟨_, _, he⟩ | ⟨_, _, _, he⟩ | ⟨rtes, _, _, _, _, he⟩ |
      ⟨rtes, _, _, _, _, _, he⟩ | ⟨rtes, emitted, _, _, hrt, _, hret, he, hem⟩
    · rw [he] at hp; simp [outputs_on] at hp
    · rw [he] at hp; simp [outputs_on] at hp
    · rw [he] at hp; simp [outputs_on] at hp
    · rw [he] at hp; simp [outputs_on] at hp
    · rw [he, outputs_on_append,
        (get_next_geographic_hop_events calc_range rtes _ _ _ 0).1] at hp
      simp [outputs_on] at hp
    · rw [he, outputs_on_append,
        (get_next_geographic_hop_events calc_range rtes _ _ _ 0).1] at hp
      simp [outputs_on] at hp
      obtain ⟨hf, N, hN, hh, hout⟩ :=
        get_next_geographic_hop_ret_true calc_range rtes _ _ _ hret
      refine ⟨rtes, N, hrt, hf, hN, hh, ?_⟩
      rw [hp, hem, hout]
  refine ⟨key, ?_⟩
  intro hno
  cases hl : outputs_on 0 (push calc_range hops_bits cfg packet).events with
  | nil => rfl
  | cons p rest =>
    obtain ⟨rtes, N, hrt, _, hN, hh, _⟩ := key p (by rw [hl]; simp)
    exact absurd ⟨rtes, N, hrt, hN, hh⟩ hno

/-- Witness for C12: `pkt0` is forwarded with table A, B, C to link CC, the
`next_hop_eth` of the one-hop entry C; with the table holding only B (next hop A
absent) nothing is emitted on output 0. -/
theorem push_forwards_only_verified_witness :
    ({ pkt0 with ether_shost := 255, ether_dhost := linkCC, tx_ip := 100,
                 hops_travelled := 5 } : PacketData) ∈
      outputs_on 0 (push sq_range 8 (cfgWith (some tableABC)) ⟨false, pkt0⟩).events ∧
    (∃ rtes N, (cfgWith (some tableABC))._rt = some rtes ∧
      (scan sq_range pkt0.dst_loc rtes).found_one = true ∧
      findp rtes (scan sq_range pkt0.dst_loc rtes).next_hop = some N ∧
      N.num_hops = 1 ∧ linkCC = N.next_hop_eth) ∧
    (¬ ∃ rtes N, (cfgWith (some tableB))._rt = some rtes ∧
      findp rtes (scan sq_range pkt0.dst_loc rtes).next_hop = some N ∧ N.num_hops = 1) ∧
    outputs_on 0 (push sq_range 8 (cfgWith (some tableB)) ⟨false, pkt0⟩).events = [] :=
  have hno : ¬ ∃ rtes N, (cfgWith (some tableB))._rt = some rtes ∧
      findp rtes (scan sq_range pkt0.dst_loc rtes).next_hop = some N ∧ N.num_hops = 1 := by
    rintro ⟨rtes, N, hrt, hN, _⟩
    have h : rtes = tableB := by
      simp only [cfgWith, Option.some.injEq] at hrt
      exact hrt.symm
    have hnone : findp tableB (scan sq_range pkt0.dst_loc tableB).next_hop = none := by
      decide
    rw [h, hnone] at hN
    exact absurd hN (by simp)
  ⟨by decide,
   (push_forwards_only_verified sq_range 8 (cfgWith (some tableABC)) ⟨false, pkt0⟩).1
     { pkt0 with ether_shost := 255, ether_dhost := linkCC, tx_ip := 100,
                 hops_travelled := 5 }
     (by decide),
   hno,
   (push_forwards_only_verified sq_range 8 (cfgWith (some tableB)) ⟨false, pkt0⟩).2 hno⟩

/-! ## Dropped packets and the content of the notification -/

/-- C13. Every packet that `push` emits on output 1 or 2 is equal, field for
field, to the input packet, so `hops_travelled`, `tx_ip`, `ether_shost` and
`ether_dhost` are unchanged; and each of the four exits that drop onto an
output emits exactly the input packet there: unknown type and bad destination
location on output 2, no table and no closer node on output 1. -/
theorem push_drops_unchanged_packet {D : Type} [LinearOrder D] [Zero D]
    (calc_range : grid_location → grid_location → D) (hops_bits : Nat)
    (cfg : Config) (packet : Packet) :
    (∀ port p, port ≠ 0 → p ∈ outputs_on port (push calc_range hops_bits cfg packet).events →
      p = packet.data) ∧
    (¬ known_type packet.data.type →
      outputs_on 2 (push calc_range hops_bits cfg packet).events = [packet.data]) ∧
    (known_type packet.data.type → packet.data.dst_ip ≠ cfg._ipaddr → cfg._rt = none →
      outputs_on 1 (push calc_range hops_bits cfg packet).events = [packet.data]) ∧
    (∀ rtes, known_type packet.data.type → packet.data.dst_ip ≠ cfg._ipaddr →
      cfg._rt = some rtes → packet.data.dst_loc_good = false →
      outputs_on 2 (push calc_range hops_bits cfg packet).events = [packet.data]) ∧
    (∀ rtes, known_type packet.data.type → packet.data.dst_ip ≠ cfg._ipaddr →
      cfg._rt = some rtes → packet.data.dst_loc_good = true →
      (get_next_geographic_hop calc_range rtes packet.data.dst_ip
        packet.data.dst_loc { dest_eth := 0, dest_ip := 0, best_nbr := 0 }).ret = false →
      outputs_on 1 (push calc_range hops_bits cfg packet).events = [packet.data]) := by
  refine ⟨?_, ?_, ?_, ?_, ?_⟩
  · intro port p hport hp
    rcases push_exits calc_range hops_bits cfg packet with
      ⟨_, he⟩ | ⟨_, _, he⟩ | ⟨_, _, _, he⟩ | ⟨rtes, _, _, _, _, he⟩ |
      ⟨rtes, _, _, _, _, _, he⟩ | ⟨rtes, emitted, _, _, _, _, _, he, _⟩
    · rw [he] at hp
      simp only [outputs_on] at hp
      split at hp <;> simp_all
    · rw [he] at hp; simp [outputs_on] at hp
    · rw [he] at hp
      simp only [outputs_on] at hp
      split at hp <;> simp_all
    · rw [he] at hp
      simp only [outputs_on] at hp
      split at hp <;> simp_all
    · rw [he, outputs_on_append,
        (get_next_geographic_hop_events calc_range rtes _ _ _ port).1] at hp
      simp only [outputs_on, List.nil_append] at hp
      split at hp <;> simp_all
    · rw [he, outputs_on_append,
        (get_next_geographic_hop_events calc_range rtes _ _ _ port).1] at hp
      simp only [outputs_on, List.nil_append] at hp
      split at hp
      · omega
      · simp at hp
  · intro h
    rw [push_unknown_type calc_range hops_bits cfg packet h]; rfl
  · intro h1 h2 h3
    rw [push_no_table calc_range hops_bits cfg packet h1 h2 h3]; rfl
  · intro rtes h1 h2 h3 h4
    rw [push_bad_loc calc_range hops_bits cfg packet rtes h1 h2 h3 h4]; rfl
  · intro rtes h1 h2 h3 h4 h5
    rw [push_no_hop calc_range hops_bits cfg packet rtes h1 h2 h3 h4 h5, outputs_on_append,
      (get_next_geographic_hop_events calc_range rtes _ _ _ 1).1]
    rfl

/-- Witness for C13: a shared `pkt0` dropped for lack of a closer node comes out
of output 1 unchanged, and a packet of an unaccepted type out of output 2. -/
theorem push_drops_unchanged_packet_witness :
    (pkt0 ∈ outputs_on 1 (push sq_range 8 (cfgWith (some tableNoLoc)) ⟨true, pkt0⟩).events ∧
      pkt0 = (⟨true, pkt0⟩ : Packet).data) ∧
    (¬ known_type pktOther.type ∧
      outputs_on 2 (push sq_range 8 (cfgWith none) ⟨false, pktOther⟩).events = [pktOther]) ∧
    outputs_on 1 (push sq_range 8 (cfgWith (some tableNoLoc)) ⟨true, pkt0⟩).events = [pkt0] :=
  ⟨⟨by decide,
    (push_drops_unchanged_packet sq_range 8 (cfgWith (some tableNoLoc)) ⟨true, pkt0⟩).1 1 pkt0
      (by decide) (by decide)⟩,
   ⟨by decide,
    (push_drops_unchanged_packet sq_range 8 (cfgWith none) ⟨false, pktOther⟩).2.1
      (by decide)⟩,
   (push_drops_unchanged_packet sq_range 8 (cfgWith (some tableNoLoc))
      ⟨true, pkt0⟩).2.2.2.2 tableNoLoc (Or.inl rfl) (by decide) rfl rfl (by decide)⟩

/-- C14. The single notification of `push` carries the packet's destination
address on every exit but the unknown-type one, where the address argument is 0;
on a forward it carries `ForwardGF`, the `next_hop_ip` of the resolved one-hop
entry `N` as the next hop used, and the winning entry's `next_hop_ip` (the
scan's `next_hop`) as the chosen neighbour. -/
theorem push_notification_content {D : Type} [LinearOrder D] [Zero D]
    (calc_range : grid_location → grid_location → D) (hops_bits : Nat)
    (cfg : Config) (packet : Packet) :
    (¬ known_type packet.data.type →
      notifications (push calc_range hops_bits cfg packet).events =
        [Event.notify 0 Action.Drop (NotifyData.reason DropReason.UnknownType) 0]) ∧
    (known_type packet.data.type →
      ∃ action data data2,
        notifications (push calc_range hops_bits cfg packet).events =
          [Event.notify packet.data.dst_ip action data data2]) ∧
    (∀ rtes, known_type packet.data.type → packet.data.dst_ip ≠ cfg._ipaddr →
      cfg._rt = some rtes → packet.data.dst_loc_good = true →
      (get_next_geographic_hop calc_range rtes packet.data.dst_ip
        packet.data.dst_loc { dest_eth := 0, dest_ip := 0, best_nbr := 0 }).ret = true →
      ∃ N, (scan calc_range packet.data.dst_loc rtes).found_one = true ∧
        findp rtes (scan calc_range packet.data.dst_loc rtes).next_hop = some N ∧
        N.num_hops = 1 ∧
        notifications (push calc_range hops_bits cfg packet).events =
          [Event.notify packet.data.dst_ip Action.ForwardGF (NotifyData.addr N.next_hop_ip)
            (scan calc_range packet.data.dst_loc rtes).next_hop]) := by
  refine ⟨?_, ?_, ?_⟩
  · intro h
    rw [push_unknown_type calc_range hops_bits cfg packet h]; rfl
  · intro hk
    rcases push_exits calc_range hops_bits cfg packet with
      ⟨hn, _⟩ | ⟨_, _, he⟩ | ⟨_, _, _, he⟩ | ⟨rtes, _, _, _, _, he⟩ |
      ⟨rtes, _, _, _, _, _, he⟩ | ⟨rtes, emitted, _, _, _, _, _, he, _⟩
    · exact absurd hk hn
    · exact ⟨_, _, _, by rw [he]; rfl⟩
    · exact ⟨_, _, _, by rw [he]; rfl⟩
    · exact ⟨_, _, _, by rw [he]; rfl⟩
    · rw [he, notifications_append,
        (get_next_geographic_hop_events calc_range rtes _ _ _ 0).2.1]
      exact ⟨_, _, _, rfl⟩
    · rw [he, notifications_append,
        (get_next_geographic_hop_events calc_range rtes _ _ _ 0).2.1]
      exact ⟨_, _, _, rfl⟩
  · intro rtes h1 h2 h3 h4 h5
    obtain ⟨emitted, m, hp, _, _⟩ :=
      push_found_hop calc_range hops_bits cfg packet rtes h1 h2 h3 h4 h5
    obtain ⟨hf, N, hN, hh, hout⟩ :=
      get_next_geographic_hop_ret_true calc_range rtes _ _ _ h5
    refine ⟨N, hf, hN, hh, ?_⟩
    rw [hp, notifications_append,
      (get_next_geographic_hop_events calc_range rtes _ _ _ 0).2.1, hout]
    rfl

/-- Witness for C14: an unaccepted type is notified with address 0 although the
packet's `dst_ip` field is 100; `pkt0`, forwarded with table A, B, C, is
notified with destination 9 and `ForwardGF`, next hop C and neighbour C. -/
theorem push_notification_content_witness :
    (¬ known_type pktOther.type ∧ pktOther.dst_ip = 100 ∧
      notifications (push sq_range 8 (cfgWith none) ⟨false, pktOther⟩).events =
        [Event.notify 0 Action.Drop (NotifyData.reason DropReason.UnknownType) 0]) ∧
    (known_type pkt0.type ∧
      ∃ action data data2,
        notifications (push sq_range 8 (cfgWith none) ⟨false, pkt0⟩).events =
          [Event.notify 9 action data data2]) ∧
    (∃ N, (scan sq_range pkt0.dst_loc tableABC).found_one = true ∧
      findp tableABC (scan sq_range pkt0.dst_loc tableABC).next_hop = some N ∧
      N.num_hops = 1 ∧
      notifications (push sq_range 8 (cfgWith (some tableABC)) ⟨false, pkt0⟩).events =
        [Event.notify 9 Action.ForwardGF (NotifyData.addr N.next_hop_ip) addrC]) :=
  ⟨⟨by decide, rfl,
    (push_notification_content sq_range 8 (cfgWith none) ⟨false, pktOther⟩).1 (by decide)⟩,
   ⟨Or.inl rfl,
    (push_notification_content sq_range 8 (cfgWith none) ⟨false, pkt0⟩).2.1 (Or.inl rfl)⟩,
   (push_notification_content sq_range 8 (cfgWith (some tableABC)) ⟨false, pkt0⟩).2.2
     tableABC (Or.inl rfl) (by decide) rfl rfl (by decide)⟩

/-! ## The table invariant, lookups and iteration order -/

section TableLemmas

variable {D : Type} [LinearOrder D] [Zero D]
  (calc_range : grid_location → grid_location → D) (dest_loc : grid_location)

/-- When the scan found a candidate, its `next_hop` comes from a `loc_good`
entry of the table that is at least as close as every `loc_good` entry. -/
theorem scan_found_min (rt : RTable)
    (hf : (scan calc_range dest_loc rt).found_one = true) :
    ∃ E ∈ rt, E.2.loc_good = true ∧
      (scan calc_range dest_loc rt).next_hop = E.2.next_hop_ip ∧
      ∀ F ∈ rt, F.2.loc_good = true →
        calc_range dest_loc E.2.loc ≤ calc_range dest_loc F.2.loc := by
  rcases scanInv_scan calc_range dest_loc rt with
    ⟨hf0, _⟩ | ⟨_, pre, E, post, hl, hE, hnh, _, hpre, hpost⟩
  · rw [hf0] at hf; exact absurd hf (by simp)
  · refine ⟨E, by simp [hl], hE, hnh, ?_⟩
    intro F hF hFg
    rw [hl] at hF
    rcases List.mem_append.1 hF with hF | hF
    · exact le_of_lt (hpre F hF hFg)
    · rcases List.mem_cons.1 hF with hF | hF
      · rw [hF]
      · exact hpost F hF hFg

theorem findp_some_mem (rt : RTable) (k : IPAddress) (e : RTEntry)
    (h : findp rt k = some e) : (k, e) ∈ rt := by
  induction rt with
  | nil => simp [findp] at h
  | cons kv rest ih =>
    obtain ⟨k1, e1⟩ := kv
    simp only [findp] at h
    split at h
    · rename_i hk
      simp only [Option.some.injEq] at h
      simp [hk, h]
    · exact List.mem_cons_of_mem _ (ih h)

theorem findp_of_mem (rt : RTable) (k : IPAddress) (e : RTEntry)
    (hkeys : distinct_keys rt) (h : (k, e) ∈ rt) : findp rt k = some e := by
  induction rt with
  | nil => simp at h
  | cons kv rest ih =>
    obtain ⟨k1, e1⟩ := kv
    unfold distinct_keys at hkeys
    simp only [List.map_cons, List.nodup_cons, List.mem_map, not_exists, not_and] at hkeys
    simp only [findp]
    rcases List.mem_cons.1 h with h | h
    · simp only [Prod.mk.injEq] at h
      simp [h.1, h.2]
    · have hne : k1 ≠ k := fun hk => hkeys.1 (k, e) h hk.symm
      simp only [hne, if_false]
      exact ih hkeys.2 h

theorem findp_perm (rt1 rt2 : RTable) (k : IPAddress) (hperm : rt1.Perm rt2)
    (hkeys : distinct_keys rt1) : findp rt1 k = findp rt2 k := by
  have hkeys2 : distinct_keys rt2 := (hperm.map Prod.fst).nodup_iff.1 hkeys
  cases h1 : findp rt1 k with
  | some e =>
    exact (findp_of_mem rt2 k e hkeys2 (hperm.mem_iff.1 (findp_some_mem rt1 k e h1))).symm
  | none =>
    cases h2 : findp rt2 k with
    | none => rfl
    | some e =>
      rw [findp_of_mem rt1 k e hkeys (hperm.mem_iff.2 (findp_some_mem rt2 k e h2))] at h1
      exact absurd h1 (by simp)

end TableLemmas

/-- C15. If every entry's `next_hop_ip` is a key of the table whose entry has
`num_hops = 1`, then for every destination location `get_next_geographic_hop`
returns true if and only if some entry has `loc_good`, and it never emits the
chatter of the two consistency-failure branches. -/
theorem invariant_table_true_iff_candidate {D : Type} [LinearOrder D] [Zero D]
    (calc_range : grid_location → grid_location → D) (rtes : RTable)
    (dest : IPAddress) (dest_loc : grid_location) (out : HopOut)
    (hinv : route_table_invariant rtes) :
    ((get_next_geographic_hop calc_range rtes dest dest_loc out).ret = true ↔
      ∃ kv ∈ rtes, kv.2.loc_good = true) ∧
    ∀ m, Event.chatter m ∉ (get_next_geographic_hop calc_range rtes dest dest_loc out).events := by
  cases hf : (scan calc_range dest_loc rtes).found_one with
  | false =>
    have hno : ¬ ∃ kv ∈ rtes, kv.2.loc_good = true := by
      intro h
      rw [(scan_found_one_iff calc_range dest_loc rtes).2 h] at hf
      exact absurd hf (by simp)
    simp [get_next_geographic_hop, hf, hno]
  | true =>
    obtain ⟨E, hE, hEg, hnh, _⟩ := scan_found_min calc_range dest_loc rtes hf
    obtain ⟨N, hN, hh⟩ := hinv E hE
    rw [← hnh] at hN
    have hyes : ∃ kv ∈ rtes, kv.2.loc_good = true := ⟨E, hE, hEg⟩
    simp [get_next_geographic_hop, hf, hN, hh, hyes]

/-- Witness for C15: the table A, B, C satisfies the invariant (A and C are
one-hop entries, B goes via A) and the call returns true. -/
theorem invariant_table_true_iff_candidate_witness :
    route_table_invariant tableABC ∧
    ((get_next_geographic_hop sq_range tableABC 9 ⟨9, 1⟩ out0).ret = true ↔
      ∃ kv ∈ tableABC, kv.2.loc_good = true) ∧
    ∀ m, Event.chatter m ∉ (get_next_geographic_hop sq_range tableABC 9 ⟨9, 1⟩ out0).events :=
  have hinv : route_table_invariant tableABC := by
    intro kv hkv
    simp only [tableABC, List.mem_cons, List.mem_singleton, List.not_mem_nil, or_false] at hkv
    rcases hkv with h | h | h
    · rw [h]; exact ⟨entryA, by decide, by decide⟩
    · rw [h]; exact ⟨entryA, by decide, by decide⟩
    · rw [h]; exact ⟨entryC, by decide, by decide⟩
  ⟨hinv, invariant_table_true_iff_candidate sq_range tableABC 9 ⟨9, 1⟩ out0 hinv⟩

/-- C16. The lookup of the next hop does not test `loc_good`: if some entry has
`loc_good`, and the winning entry's `next_hop_ip` is the key of an entry `N`
with `num_hops = 1` and `loc_good` false, the call still returns true with
`N.next_hop_eth` and `N.next_hop_ip`. -/
theorem resolution_ignores_loc_good {D : Type} [LinearOrder D] [Zero D]
    (calc_range : grid_location → grid_location → D) (rtes : RTable)
    (dest : IPAddress) (dest_loc : grid_location) (out : HopOut) (N : RTEntry)
    (hgood : ∃ kv ∈ rtes, kv.2.loc_good = true)
    (hN : findp rtes (scan calc_range dest_loc rtes).next_hop = some N)
    (hhops : N.num_hops = 1) (_hloc : N.loc_good = false) :
    (get_next_geographic_hop calc_range rtes dest dest_loc out).ret = true ∧
    (get_next_geographic_hop calc_range rtes dest dest_loc out).out =
      { dest_eth := N.next_hop_eth, dest_ip := N.next_hop_ip,
        best_nbr := (scan calc_range dest_loc rtes).next_hop } := by
  have hf := (scan_found_one_iff calc_range dest_loc rtes).2 hgood
  simp [get_next_geographic_hop, hf, hN, hhops]

/-- Witness for C16: A is a one-hop entry without trusted location, B (via A) is
the only candidate; the call succeeds with A's link and IP address. -/
theorem resolution_ignores_loc_good_witness :
    (∃ kv ∈ tableA_noloc_B, kv.2.loc_good = true) ∧
    findp tableA_noloc_B (scan sq_range ⟨9, 1⟩ tableA_noloc_B).next_hop =
      some { entryA with loc_good := false } ∧
    ({ entryA with loc_good := false } : RTEntry).num_hops = 1 ∧
    ({ entryA with loc_good := false } : RTEntry).loc_good = false ∧
    (get_next_geographic_hop sq_range tableA_noloc_B 9 ⟨9, 1⟩ out0).ret = true ∧
    (get_next_geographic_hop sq_range tableA_noloc_B 9 ⟨9, 1⟩ out0).out =
      { dest_eth := linkAA, dest_ip := addrA, best_nbr := addrA } :=
  ⟨⟨(addrB, entryB), by decide, by decide⟩, by decide, rfl, rfl,
   resolution_ignores_loc_good sq_range tableA_noloc_B 9 ⟨9, 1⟩ out0
     { entryA with loc_good := false } ⟨(addrB, entryB), by decide, by decide⟩
     (by decide) rfl rfl⟩

/-- On distances in a linear order: for two iteration orders `rt1`, `rt2` of the
same hash-map content without ties among the `loc_good` entries,
`get_next_geographic_hop` gives the same result. -/
theorem linear_order_same_result_without_ties {D : Type} [LinearOrder D] [Zero D]
    (calc_range : grid_location → grid_location → D) (rt1 rt2 : RTable)
    (dest : IPAddress) (dest_loc : grid_location) (out : HopOut)
    (hperm : rt1.Perm rt2) (hkeys : distinct_keys rt1)
    (hties : no_ties calc_range dest_loc rt1) :
    get_next_geographic_hop calc_range rt1 dest dest_loc out =
      get_next_geographic_hop calc_range rt2 dest dest_loc out := by
  cases hf1 : (scan calc_range dest_loc rt1).found_one with
  | false =>
    have h1 : ∀ kv ∈ rt1, kv.2.loc_good = false := by
      intro kv hkv
      cases hg : kv.2.loc_good with
      | false => rfl
      | true =>
        rw [(scan_found_one_iff calc_range dest_loc rt1).2 ⟨kv, hkv, hg⟩] at hf1
        exact absurd hf1 (by simp)
    have h2 : ∀ kv ∈ rt2, kv.2.loc_good = false :=
      fun kv hkv => h1 kv (hperm.mem_iff.2 hkv)
    rw [get_next_geographic_hop_early_return calc_range dest_loc rt1 dest out h1,
      get_next_geographic_hop_early_return calc_range dest_loc rt2 dest out h2]
  | true =>
    obtain ⟨E1, hE1, hg1, hnh1, hmin1⟩ := scan_found_min calc_range dest_loc rt1 hf1
    have hf2 : (scan calc_range dest_loc rt2).found_one = true :=
      (scan_found_one_iff calc_range dest_loc rt2).2 ⟨E1, hperm.mem_iff.1 hE1, hg1⟩
    obtain ⟨E2, hE2, hg2, hnh2, hmin2⟩ := scan_found_min calc_range dest_loc rt2 hf2
    have hE21 : E2 ∈ rt1 := hperm.mem_iff.2 hE2
    have hd : calc_range dest_loc E1.2.loc = calc_range dest_loc E2.2.loc :=
      le_antisymm (hmin1 E2 hE21 hg2) (hmin2 E1 (hperm.mem_iff.1 hE1) hg1)
    have hE : E1 = E2 := hties E1 hE1 E2 hE21 hg1 hg2 hd
    have hnh : (scan calc_range dest_loc rt1).next_hop =
        (scan calc_range dest_loc rt2).next_hop := by
      rw [hnh1, hnh2, hE]
    simp only [get_next_geographic_hop, hf1, hf2, hnh,
      findp_perm rt1 rt2 _ hperm hkeys]

/-- C18. The result of `get_next_geographic_hop` does not depend on its
destination address argument: any two addresses give the same return value and
outputs. In particular, with table A, B, C and destination location (9,1), a
call for the one-hop entry A itself still yields neighbour C, the entry whose
location is closest. -/
theorem result_independent_of_destination_address {D : Type} [LinearOrder D] [Zero D]
    (calc_range : grid_location → grid_location → D) (rtes : RTable)
    (dest1 dest2 : IPAddress) (dest_loc : grid_location) (out : HopOut) :
    get_next_geographic_hop calc_range rtes dest1 dest_loc out =
      get_next_geographic_hop calc_range rtes dest2 dest_loc out ∧
    (findp tableABC addrA = some entryA ∧ entryA.num_hops = 1 ∧
      (get_next_geographic_hop sq_range tableABC addrA ⟨9, 1⟩ out0).out =
        { dest_eth := linkCC, dest_ip := addrC, best_nbr := addrC }) := by
  refine ⟨rfl, by decide, by decide, by decide⟩

/-! ## Iteration order on `double` distances -/

theorem dbl_val_of_ne_nan {D : Type} [Zero D] (x : Dbl D) (h : x ≠ Dbl.nan) :
    x = Dbl.val x.toD := by
  cases x with
  | val v => rfl
  | nan => exact absurd rfl h

section IeeeLemmas

variable {D : Type} [LinearOrder D] [Zero D]
  (calc_range : grid_location → grid_location → Dbl D) (dest_loc : grid_location)

theorem scanSim_step (s1 : ScanState (Dbl D)) (s : ScanState D) (kv : IPAddress × RTEntry)
    (h : ScanSim s1 s)
    (hkv : kv.2.loc_good = true → calc_range dest_loc kv.2.loc ≠ Dbl.nan) :
    ScanSim (scan_step_ieee calc_range dest_loc s1 kv)
      (scan_step (fun a b => (calc_range a b).toD) dest_loc s kv) := by
  obtain ⟨hnh, hfo, hd⟩ := h
  unfold scan_step_ieee scan_step
  dsimp only
  cases hg : kv.2.loc_good with
  | false => exact ⟨hnh, hfo, hd⟩
  | true =>
    obtain ⟨x, hx⟩ : ∃ x, calc_range dest_loc kv.2.loc = Dbl.val x :=
      ⟨_, dbl_val_of_ne_nan _ (hkv hg)⟩
    simp only [hx, Dbl.toD]
    cases hf : s.found_one with
    | false =>
      rw [hf] at hfo
      simp only [hfo, Bool.not_true, Bool.not_false, Bool.false_eq_true, if_false, if_true]
      exact ⟨rfl, rfl, fun _ => rfl⟩
    | true =>
      rw [hf] at hfo
      have hd1 : s1.d = Dbl.val s.d := hd hf
      simp only [hfo, Bool.not_true, Bool.false_eq_true, if_false, hd1, Dbl.lt,
        decide_eq_true_eq]
      by_cases hlt : x < s.d
      · simp only [hlt, if_true]
        exact ⟨rfl, rfl, fun _ => rfl⟩
      · simp only [hlt, if_false]
        exact ⟨hnh, hfo.trans hf.symm, fun _ => hd1⟩

theorem scanSim_from (rt : RTable) (s1 : ScanState (Dbl D)) (s : ScanState D)
    (h : ScanSim s1 s) (hnan : no_nan calc_range dest_loc rt) :
    ScanSim (scan_from_ieee calc_range dest_loc s1 rt)
      (scan_from (fun a b => (calc_range a b).toD) dest_loc s rt) := by
  induction rt generalizing s1 s with
  | nil => exact h
  | cons kv rest ih =>
    simp only [scan_from_ieee, scan_from, List.foldl_cons]
    exact ih _ _
      (scanSim_step calc_range dest_loc s1 s kv h (hnan kv (List.mem_cons_self _ _)))
      (fun e he => hnan e (List.mem_cons_of_mem _ he))

/-- Without NaN among the candidates' distances, the function on doubles is the
function on the linear order of their values. -/
theorem get_next_geographic_hop_ieee_eq (rtes : RTable) (dest : IPAddress) (out : HopOut)
    (hnan : no_nan calc_range dest_loc rtes) :
    get_next_geographic_hop_ieee calc_range rtes dest dest_loc out =
      get_next_geographic_hop (fun a b => (calc_range a b).toD) rtes dest dest_loc out := by
  have hsim : ScanSim (scan_ieee calc_range dest_loc rtes)
      (scan (fun a b => (calc_range a b).toD) dest_loc rtes) :=
    scanSim_from calc_range dest_loc rtes _ _ ⟨rfl, rfl, fun _ => rfl⟩ hnan
  obtain ⟨hnh, hfo, _⟩ := hsim
  simp only [get_next_geographic_hop_ieee, get_next_geographic_hop, hnh, hfo]

end IeeeLemmas

/-- C17 (counterexample). The entries A and C are both `loc_good`, their
distances from (9,1) are NaN and 2, so no two entries are at equal distance; yet
iterated as A, C the call returns neighbour A with link AA, and iterated as
C, A it returns neighbour C with link CC. -/
theorem nan_distance_makes_order_matter :
    tableAC.Perm tableCA ∧ distinct_keys tableAC ∧ no_ties nan_range ⟨9, 1⟩ tableAC ∧
    get_next_geographic_hop_ieee nan_range tableAC 9 ⟨9, 1⟩ out0 =
      { ret := true, out := { dest_eth := linkAA, dest_ip := addrA, best_nbr := addrA },
        events := [Event.findp addrA] } ∧
    get_next_geographic_hop_ieee nan_range tableCA 9 ⟨9, 1⟩ out0 =
      { ret := true, out := { dest_eth := linkCC, dest_ip := addrC, best_nbr := addrC },
        events := [Event.findp addrC] } ∧
    (get_next_geographic_hop_ieee nan_range tableAC 9 ⟨9, 1⟩ out0).out ≠
      (get_next_geographic_hop_ieee nan_range tableCA 9 ⟨9, 1⟩ out0).out := by
  refine ⟨by decide, by unfold distinct_keys; decide, by unfold no_ties; decide,
    by decide, by decide, by decide⟩

/-- C17 (amended). For every destination location and any two iteration orders
`rt1`, `rt2` of the same hash-map content (a permutation, keys pairwise
distinct), if no `loc_good` entry has a NaN distance from the destination
location and no two distinct `loc_good` entries are at equal distance from it,
`get_next_geographic_hop` gives the same result for both orders: same return
value, same three outputs (and same effects). -/
theorem iteration_order_irrelevant_without_ties_or_nan {D : Type} [LinearOrder D] [Zero D]
    (calc_range : grid_location → grid_location → Dbl D) (rt1 rt2 : RTable)
    (dest : IPAddress) (dest_loc : grid_location) (out : HopOut)
    (hperm : rt1.Perm rt2) (hkeys : distinct_keys rt1)
    (hnan : no_nan calc_range dest_loc rt1)
    (hties : no_ties calc_range dest_loc rt1) :
    get_next_geographic_hop_ieee calc_range rt1 dest dest_loc out =
      get_next_geographic_hop_ieee calc_range rt2 dest dest_loc out := by
  have hnan2 : no_nan calc_range dest_loc rt2 :=
    fun e he hg => hnan e (hperm.mem_iff.2 he) hg
  have hties1 : no_ties (fun a b => (calc_range a b).toD) dest_loc rt1 := by
    intro e he f hf hge hgf heq
    apply hties e he f hf hge hgf
    rw [dbl_val_of_ne_nan _ (hnan e he hge), dbl_val_of_ne_nan _ (hnan f hf hgf)]
    exact congrArg Dbl.val heq
  rw [get_next_geographic_hop_ieee_eq calc_range dest_loc rt1 dest out hnan,
    get_next_geographic_hop_ieee_eq calc_range dest_loc rt2 dest out hnan2]
  exact linear_order_same_result_without_ties _ rt1 rt2 dest dest_loc out hperm hkeys hties1

/-- Witness for C17 (amended): the table A, B, C iterated as A, B, C and as
C, A, B, with destination location (9,1), where the three distances 85, 20 and 2
are numbers and differ. -/
theorem iteration_order_irrelevant_without_ties_or_nan_witness :
    tableABC.Perm tableCAB ∧ distinct_keys tableABC ∧
    no_nan ieee_sq_range ⟨9, 1⟩ tableABC ∧ no_ties ieee_sq_range ⟨9, 1⟩ tableABC ∧
    get_next_geographic_hop_ieee ieee_sq_range tableABC 9 ⟨9, 1⟩ out0 =
      get_next_geographic_hop_ieee ieee_sq_range tableCAB 9 ⟨9, 1⟩ out0 :=
  have hperm : tableABC.Perm tableCAB := by decide
  have hkeys : distinct_keys tableABC := by unfold distinct_keys; decide
  have hnan : no_nan ieee_sq_range ⟨9, 1⟩ tableABC := by unfold no_nan; decide
  have hties : no_ties ieee_sq_range ⟨9, 1⟩ tableABC := by unfold no_ties; decide
  ⟨hperm, hkeys, hnan, hties,
   iteration_order_irrelevant_without_ties_or_nan ieee_sq_range tableABC tableCAB 9 ⟨9, 1⟩
     out0 hperm hkeys hnan hties⟩

end LookupGeographicGridRoute

